import Mathlib

/-!
# Verification of the Seraphic Calibration Shell (SCS)

A shallow embedding, in Lean 4, of the core calibration logic of the
repository (`src/scs/`): configurations and their neighbourhood structure
(`config.py`), the performance triplet and its aggregation
(`performance.py`), the Mandorla calibration field and feedback encoder
(`field.py`), the double-kick search operator (`operators.py`), the
Proof-of-Resonance acceptance gate (`por.py`), the CRI stagnation
monitor (`cri.py`) and the orchestrating calibrator (`calibrator.py`).

Conventions used throughout:
* Python floats are modelled exactly: values produced by pure rational
  arithmetic (configuration parameters, performance triplets, scores,
  variances) live in `ℚ`; values that genuinely require square roots,
  cube roots or trigonometric functions (field vectors, norms, the
  feedback encoder, resonance) live in `ℝ`.  Decimal literals from the
  source (`0.95`, `1e-10`, ...) become the corresponding exact
  rationals.
* NumPy arrays become `List ℝ`; elementwise operations become
  `List.zipWith`/`List.map`.  NumPy's elementwise operations require
  equal lengths (it raises on a broadcast mismatch); where a theorem
  depends on that, a `WellFormed` hypothesis records the lengths that
  `MandorlaField.__post_init__` guarantees.
* Python `raise` becomes `Except`: a function that can raise returns
  `Except String α` (or, for the orchestrator, `Except` of the
  in-memory state as it stands at the point of the raise).
* `random.choice` / `random.uniform` draws become explicit parameters:
  a draw from a literal list becomes an index `Fin n` into that list, a
  draw from `uniform(a, b)` becomes an arbitrary rational (the code
  clamps the result, so every real draw is covered).

The file is organised as: all definitions first, then all theorems.
-/

namespace SCS

/-! ## Definitions: Configuration (`src/scs/config.py`) -/

/-- The `Configuration` dataclass (`config.py`, lines 14-45).  The open
`params` dict, which no modelled code path reads, is omitted. -/
structure Configuration where
  algorithm : String := "VQE"
  ansatz_type : String := "Metatron"
  ansatz_depth : ℤ := 2
  optimizer : String := "Adam"
  learning_rate : ℚ := 1/100
  max_iterations : ℤ := 100
  num_random_starts : ℤ := 1
  dephasing_rate : Option ℚ := none
  shot_count : Option ℤ := none
  name : Option String := none
  timestamp : Option String := none
  deriving DecidableEq, Repr

/-- `ConfigurationSpace.ALGORITHMS` (`config.py`, line 118). -/
def ALGORITHMS : List String :=
  ["VQE", "QAOA", "QuantumWalk", "Grover", "Boson", "VQC", "Integration"]

/-- `ConfigurationSpace.ANSATZ_TYPES` (`config.py`, line 119). -/
def ANSATZ_TYPES : List String :=
  ["HardwareEfficient", "EfficientSU2", "Metatron"]

/-- `ConfigurationSpace.OPTIMIZERS` (`config.py`, line 120). -/
def OPTIMIZERS : List String :=
  ["Adam", "LBFGS", "GradientDescent", "COBYLA"]

/-- `ConfigurationSpace.default_configuration` (`config.py`, lines 127-138). -/
def default_configuration : Configuration :=
  { algorithm := "VQE"
    ansatz_type := "Metatron"
    ansatz_depth := 2
    optimizer := "Adam"
    learning_rate := 1/100
    max_iterations := 100
    num_random_starts := 1
    name := some "default" }

/-- `ConfigurationSpace.is_valid` (`config.py`, lines 140-154), with the
same early-return structure. -/
def is_valid (c : Configuration) : Bool :=
  if c.algorithm ∉ ALGORITHMS then false
  else if c.ansatz_type ∉ ANSATZ_TYPES then false
  else if c.optimizer ∉ OPTIMIZERS then false
  else if c.ansatz_depth < 1 ∨ c.ansatz_depth > 10 then false
  else if c.learning_rate ≤ 0 ∨ c.learning_rate > 1 then false
  else if c.max_iterations < 1 then false
  else true

/-- One random draw of `ConfigurationSpace.generate_neighbors`
(`config.py`, lines 176-213): which parameter is perturbed, together
with the random value drawn for it.  Draws from literal lists are
indices into those lists; the `uniform(0.8, 1.2)` factor for the
learning rate is an arbitrary rational (the code clamps the product, so
every real draw is covered by this generalisation). -/
inductive NeighborDraw where
  | depth (i : Fin 3)
  | lr (u : ℚ)
  | maxIter (i : Fin 5)
  | starts (i : Fin 3)
  | optimizer (i : Fin 4)
  | ansatz (i : Fin 3)
  deriving DecidableEq, Repr

/-- The single-parameter perturbation performed for one draw inside the
loop of `generate_neighbors` (`config.py`, lines 190-213). -/
def applyDraw (c : Configuration) : NeighborDraw → Configuration
  | .depth i =>
      { c with ansatz_depth := max 1 (min 10 (c.ansatz_depth + ([-1, 0, 1] : List ℤ).getD i.val 0)) }
  | .lr u =>
      { c with learning_rate := max (1/1000) (min (1/10) (c.learning_rate * u)) }
  | .maxIter i =>
      { c with max_iterations := max 10 (min 500 (c.max_iterations + ([-20, -10, 0, 10, 20] : List ℤ).getD i.val 0)) }
  | .starts i =>
      { c with num_random_starts := max 1 (min 5 (c.num_random_starts + ([-1, 0, 1] : List ℤ).getD i.val 0)) }
  | .optimizer i =>
      { c with optimizer := OPTIMIZERS.getD i.val "Adam" }
  | .ansatz i =>
      { c with ansatz_type := ANSATZ_TYPES.getD i.val "HardwareEfficient" }

/-- `ConfigurationSpace.generate_neighbors` (`config.py`, lines 163-218).
The loop runs once per draw (the code draws `num_neighbors` times, 8 by
default); every perturbed copy starts from `config` and is appended only
if it passes `is_valid`. -/
def generate_neighbors (c : Configuration) (draws : List NeighborDraw) :
    List Configuration :=
  (draws.map (applyDraw c)).filter is_valid

/-- `Configuration.distance` (`config.py`, lines 83-106). -/
def distance (a b : Configuration) : ℚ :=
  (if a.algorithm ≠ b.algorithm then 1 else 0)
    + (if a.ansatz_type ≠ b.ansatz_type then 1 else 0)
    + (if a.optimizer ≠ b.optimizer then 1 else 0)
    + |(a.ansatz_depth : ℚ) - (b.ansatz_depth : ℚ)| / 10
    + |a.learning_rate - b.learning_rate| / (1/10)
    + |(a.max_iterations : ℚ) - (b.max_iterations : ℚ)| / 100
    + |(a.num_random_starts : ℚ) - (b.num_random_starts : ℚ)| / 5

/-- The state of a `ConfigurationSpace` (`config.py`, lines 122-125). -/
structure ConfigSpaceState where
  current : Option Configuration := none
  history : List Configuration := []
  deriving DecidableEq, Repr

/-- `ConfigurationSpace.set_current` (`config.py`, lines 156-161):
raises `ValueError` on an invalid configuration, otherwise records it
and appends a copy to the space's history. -/
def set_current (s : ConfigSpaceState) (c : Configuration) :
    Except String ConfigSpaceState :=
  if is_valid c then .ok { current := some c, history := s.history ++ [c] }
  else .error "Invalid configuration"

/-! ## Definitions: Performance triplet (`src/scs/performance.py`) -/

/-- The `PerformanceTriplet` dataclass (`performance.py`, lines 19-33).
The `__post_init__` range check is modelled by the separate predicate
`PerformanceTriplet.inRange`. -/
structure PerformanceTriplet where
  psi : ℚ
  rho : ℚ
  omega : ℚ
  deriving DecidableEq, Repr

/-- The `[0, 1]` range requirement enforced by
`PerformanceTriplet.__post_init__` (`performance.py`, lines 29-33). -/
def PerformanceTriplet.inRange (t : PerformanceTriplet) : Prop :=
  0 ≤ t.psi ∧ t.psi ≤ 1 ∧ 0 ≤ t.rho ∧ t.rho ≤ 1 ∧ 0 ≤ t.omega ∧ t.omega ≤ 1

/-- `PerformanceTriplet.harmonic_mean` (`performance.py`, lines 43-47). -/
def PerformanceTriplet.harmonic_mean (t : PerformanceTriplet) : ℚ :=
  if t.psi = 0 ∨ t.rho = 0 ∨ t.omega = 0 then 0
  else 3 / (1 / t.psi + 1 / t.rho + 1 / t.omega)

/-- `PerformanceTriplet.geometric_mean` (`performance.py`, lines 49-51):
`(ψ·ρ·ω) ** (1/3)`, a real cube root. -/
noncomputable def PerformanceTriplet.geometric_mean (t : PerformanceTriplet) : ℝ :=
  ((t.psi * t.rho * t.omega : ℚ) : ℝ) ^ ((1 : ℝ) / 3)

/-- `PerformanceTriplet.norm` (`performance.py`, lines 39-41). -/
noncomputable def PerformanceTriplet.tnorm (t : PerformanceTriplet) : ℝ :=
  Real.sqrt ((t.psi : ℝ) ^ 2 + (t.rho : ℝ) ^ 2 + (t.omega : ℝ) ^ 2)

/-- The neutral fallback triplet `(0.5, 0.5, 0.5)`
(`performance.py`, line 315). -/
def neutralTriplet : PerformanceTriplet := ⟨1/2, 1/2, 1/2⟩

/-- One loaded benchmark family as seen by
`compute_performance_triplet` (`performance.py`, lines 291-311): the
family name together with the values the family-specific extractors
(`compute_vqe_quality`/`..._stability`/`..._efficiency` and their qaoa
and cross-system counterparts) produce from the raw payload.  The raw
JSON payload parsing is abstracted away: no claim depends on it, only
on which families contribute and on the aggregation. -/
structure BenchEntry where
  name : String
  psiVal : ℚ
  rhoVal : ℚ
  omegaVal : ℚ
  deriving DecidableEq, Repr

/-- The default `algorithm_weights` dict of
`compute_performance_triplet` (`performance.py`, lines 274-283),
including the `.get(name, 0.5)` fallback. -/
def algorithmWeight (name : String) : ℚ :=
  if name = "vqe" then 1
  else if name = "qaoa" then 1
  else if name = "quantum_walk" then 1/2
  else if name = "advanced" then 1/2
  else if name = "vqc" then 1/2
  else if name = "cross_system" then 3/2
  else if name = "integration" then 1/2
  else 1/2

/-- The benchmark families actually handled by the dispatch in
`compute_performance_triplet` (`performance.py`, lines 296-311); other
families are skipped. -/
def handledFamilies : List String := ["vqe", "qaoa", "cross_system"]

/-- `compute_performance_triplet` (`performance.py`, lines 260-329) with
default weights: collect the (extractor values, weight) contributions of
the handled families (skipping non-positive weights, as the code does),
fall back to the neutral triplet when nothing contributed, otherwise
take the weight-normalised average of each component and clamp it to
`[0, 1]`. -/
def compute_performance_triplet (benchmarks : List BenchEntry) :
    PerformanceTriplet :=
  let contribs := benchmarks.filter
    (fun b => 0 < algorithmWeight b.name ∧ b.name ∈ handledFamilies)
  if contribs.isEmpty then neutralTriplet
  else
    let w := (contribs.map (fun b => algorithmWeight b.name)).sum
    let avg := fun (f : BenchEntry → ℚ) =>
      (contribs.map (fun b => algorithmWeight b.name * f b)).sum / w
    { psi := max 0 (min 1 (avg (·.psiVal)))
      rho := max 0 (min 1 (avg (·.rhoVal)))
      omega := max 0 (min 1 (avg (·.omegaVal))) }

/-! ## Definitions: CRI stagnation monitor (`src/scs/cri.py`) -/

/-- `np.mean` of a list of exact floats. -/
def listMean (l : List ℚ) : ℚ := l.sum / l.length

/-- `np.var` (population variance) of a list of exact floats. -/
def listVar (l : List ℚ) : ℚ :=
  (l.map (fun x => (x - listMean l) ^ 2)).sum / l.length

/-- The `GlobalCalibrationState` dataclass (`cri.py`, lines 18-27). -/
structure GlobalCalibrationState where
  history : List ℚ := []
  window_size : ℕ := 5
  deriving DecidableEq, Repr

/-- Python's `history[-w:]` (the most recent `w` entries) for `w ≥ 1`. -/
def lastWindow (s : GlobalCalibrationState) : List ℚ :=
  s.history.drop (s.history.length - s.window_size)

/-- Python's `history[-2w:-w]` (the `w` entries preceding the most
recent window), meaningful once `2w` entries exist. -/
def prevWindow (s : GlobalCalibrationState) : List ℚ :=
  (s.history.drop (s.history.length - 2 * s.window_size)).take s.window_size

/-- `GlobalCalibrationState.update` (`cri.py`, lines 29-44): append
`J = ψ·ρ·ω`, truncate the history to the most recent `2·window_size`
entries, and return the new `J`. -/
def GlobalCalibrationState.update (s : GlobalCalibrationState)
    (t : PerformanceTriplet) : GlobalCalibrationState × ℚ :=
  let j := t.psi * t.rho * t.omega
  let h := s.history ++ [j]
  let h' := if 2 * s.window_size < h.length then h.drop (h.length - 2 * s.window_size) else h
  ({ s with history := h' }, j)

/-- `GlobalCalibrationState.is_stagnating` (`cri.py`, lines 50-77), with
the same early-return structure.  (For `window_size = 0` Python's
negative-zero slicing and NaN comparisons take over; the claims are
settled for `window_size ≥ 1`.) -/
def is_stagnating (s : GlobalCalibrationState) (threshold : ℚ) : Bool :=
  if s.history.length < s.window_size then false
  else if threshold < listVar (lastWindow s) then false
  else if 2 * s.window_size ≤ s.history.length ∧
      listMean (prevWindow s) + threshold < listMean (lastWindow s) then false
  else true

/-- `GlobalCalibrationState.is_degrading` (`cri.py`, lines 79-95). -/
def is_degrading (s : GlobalCalibrationState) (threshold : ℚ) : Bool :=
  if s.history.length < 2 * s.window_size then false
  else decide (listMean (lastWindow s) < listMean (prevWindow s) - threshold)

/-- The `ResonanceImpulseConfig` dataclass (`cri.py`, lines 98-114). -/
structure ResonanceImpulseConfig where
  min_steps : ℕ := 10
  stagnation_threshold : ℚ := 1/100
  degradation_threshold : ℚ := 1/20
  min_field_resonance : ℚ := 3/10
  deriving DecidableEq, Repr

/-- The mutable state of a `ResonanceImpulse` (`cri.py`, lines 126-135). -/
structure ResonanceImpulse where
  config : ResonanceImpulseConfig := {}
  global_state : GlobalCalibrationState := {}
  steps_since_last_impulse : ℕ := 0
  deriving DecidableEq, Repr

/-- `ResonanceImpulse.update` (`cri.py`, lines 137-148). -/
def ResonanceImpulse.update (r : ResonanceImpulse) (t : PerformanceTriplet) :
    ResonanceImpulse × ℚ :=
  let (g, j) := r.global_state.update t
  ({ r with global_state := g,
            steps_since_last_impulse := r.steps_since_last_impulse + 1 }, j)

/-- `ResonanceImpulse._select_alternative_regime` (`cri.py`, lines
206-266) minus the final validity check (which `apply_impulse` performs
through `is_valid`): the three fixed lookup-table switches plus the
learning-rate adjustment. -/
def select_alternative_regime (current : Configuration) : Configuration :=
  let c1 :=
    if current.algorithm = "VQE" then
      { current with algorithm := "QAOA", ansatz_depth := 3 }
    else if current.algorithm = "QAOA" then
      { current with algorithm := "VQE", ansatz_depth := 2 }
    else if current.algorithm = "QuantumWalk" then
      { current with algorithm := "VQE" }
    else
      { current with algorithm := "VQE" }
  let c2 := { c1 with ansatz_type :=
    if current.ansatz_type = "Metatron" then "EfficientSU2"
    else if current.ansatz_type = "EfficientSU2" then "HardwareEfficient"
    else if current.ansatz_type = "HardwareEfficient" then "Metatron"
    else "Metatron" }
  let c3 := { c2 with optimizer :=
    if current.optimizer = "Adam" then "LBFGS"
    else if current.optimizer = "LBFGS" then "GradientDescent"
    else if current.optimizer = "GradientDescent" then "Adam"
    else if current.optimizer = "COBYLA" then "Adam"
    else "Adam" }
  if c3.optimizer = "Adam" then { c3 with learning_rate := 1/100 }
  else if c3.optimizer = "LBFGS" then { c3 with learning_rate := 1/10 }
  else { c3 with learning_rate := 1/200 }

/-- `ResonanceImpulse.apply_impulse` (`cri.py`, lines 180-204, together
with the validity fallback at lines 261-266): reset the step counter,
switch regime, and fall back to the default configuration if the result
is invalid. -/
def apply_impulse (r : ResonanceImpulse) (current : Configuration) :
    ResonanceImpulse × Configuration :=
  let cand := select_alternative_regime current
  ({ r with steps_since_last_impulse := 0 },
   if is_valid cand then cand else default_configuration)

/-! ## Definitions: double-kick operator (`src/scs/operators.py`) -/

/-- `UpdateKick._estimate_quality_improvement` (`operators.py`, lines
78-109). -/
def estimate_quality_improvement (current candidate : Configuration)
    (current_perf : PerformanceTriplet) : ℚ :=
  let s0 := current_perf.psi
  let s1 := if candidate.ansatz_type = "Metatron" ∧ 1 ≤ candidate.ansatz_depth ∧
      candidate.ansatz_depth ≤ 3 then s0 + 1/20 else s0
  let s2 := if candidate.optimizer = "Adam" then s1 + 1/50 else s1
  let s3 := if current.num_random_starts < candidate.num_random_starts then
      s2 + (1/100) * ((candidate.num_random_starts : ℚ) - (current.num_random_starts : ℚ))
    else s2
  let s4 := if 1/200 ≤ candidate.learning_rate ∧ candidate.learning_rate ≤ 1/50 then
      s3 + 1/50 else s3
  min 1 s4

/-- `StabilizationKick._estimate_stability_improvement` (`operators.py`,
lines 170-201). -/
def estimate_stability_improvement (current candidate : Configuration)
    (current_perf : PerformanceTriplet) : ℚ :=
  let rho1 := if 3 ≤ candidate.num_random_starts then current_perf.rho + 1/20
    else current_perf.rho
  let rho2 := if candidate.ansatz_depth ≤ 2 then rho1 + 3/100 else rho1
  let om1 := if candidate.ansatz_depth < current.ansatz_depth then
      current_perf.omega + 1/20 else current_perf.omega
  let om2 := if candidate.max_iterations < current.max_iterations then
      om1 + 1/50 else om1
  min 1 (3/5 * rho2 + 2/5 * om2)

/-- The best-neighbor selection loop shared by both kicks
(`operators.py`, lines 62-76 and 155-168): fold over the sampled
neighbors keeping the first strict improver of the running best score. -/
def selectBest (score : Configuration → ℚ) (start : Configuration)
    (startScore : ℚ) (neighbors : List Configuration) : Configuration :=
  (neighbors.foldl
    (fun best n => if best.2 < score n then (n, score n) else best)
    (start, startScore)).1

/-- `UpdateKick.apply` (`operators.py`, lines 35-76): sample neighbors,
return `config` unchanged if none, else the first neighbor whose
heuristic quality score strictly beats the current `ψ`. -/
def updateKickApply (config : Configuration) (perf : PerformanceTriplet)
    (draws : List NeighborDraw) : Configuration :=
  let neighbors := generate_neighbors config draws
  if neighbors.isEmpty then config
  else selectBest (fun n => estimate_quality_improvement config n perf)
    config perf.psi neighbors

/-- `StabilizationKick.apply` (`operators.py`, lines 130-168): same
sampling, scored by the weighted stability/efficiency blend starting
from `0.6·ρ + 0.4·ω`. -/
def stabilizationKickApply (config : Configuration) (perf : PerformanceTriplet)
    (draws : List NeighborDraw) : Configuration :=
  let neighbors := generate_neighbors config draws
  if neighbors.isEmpty then config
  else selectBest (fun n => estimate_stability_improvement config n perf)
    config (3/5 * perf.rho + 2/5 * perf.omega) neighbors

/-- The random draws consumed by one `DoubleKickOperator.apply`: the
update kick's neighbor draws followed by the stabilization kick's
(8 draws each in the code). -/
structure DoubleKickDraws where
  update : List NeighborDraw
  stabilization : List NeighborDraw

/-- `DoubleKickOperator.apply` (`operators.py`, lines 223-252):
`T = Φ_V ∘ Φ_U`. -/
def doubleKickApply (d : DoubleKickDraws) (config : Configuration)
    (perf : PerformanceTriplet) : Configuration :=
  stabilizationKickApply (updateKickApply config perf d.update) perf d.stabilization

/-- The loop of `DoubleKickOperator.iterate` (`operators.py`, lines
275-289), returning the final configuration together with the list of
recorded distances (the code appends each distance before testing the
`< 0.01` break, and does not advance `current` when it breaks).
`draws i` supplies the random draws of iteration `i`. -/
def iterateAux (draws : ℕ → DoubleKickDraws) (perf : PerformanceTriplet) :
    ℕ → ℕ → Configuration → Configuration × List ℚ
  | _, 0, current => (current, [])
  | i, fuel + 1, current =>
      if distance current (doubleKickApply (draws i) current perf) < 1/100 then
        (current, [distance current (doubleKickApply (draws i) current perf)])
      else
        ((iterateAux draws perf (i + 1) fuel (doubleKickApply (draws i) current perf)).1,
          distance current (doubleKickApply (draws i) current perf) ::
            (iterateAux draws perf (i + 1) fuel (doubleKickApply (draws i) current perf)).2)

/-- `DoubleKickOperator.iterate` (`operators.py`, lines 254-297):
run the loop, then estimate the convergence rate as
`distances[-1] / (distances[0] + 1e-10)` when at least two distances
were recorded, and `0.0` otherwise. -/
def doubleKickIterate (draws : ℕ → DoubleKickDraws) (config : Configuration)
    (perf : PerformanceTriplet) (num_iterations : ℕ) : Configuration × ℚ :=
  let r := iterateAux draws perf 0 num_iterations config
  (r.1, if 2 ≤ r.2.length then r.2.getLastD 0 / (r.2.headD 0 + 1/10 ^ 10) else 0)

/-- `DoubleKickOperator.is_contractive` (`operators.py`, lines 299-313). -/
def is_contractive (distances : List ℚ) : Bool :=
  if distances.length < 2 then false
  else decide (distances.Chain' (· > ·))

/-! ## Definitions: vectors over ℝ (NumPy arrays in `field.py`) -/

/-- Elementwise addition (`numpy +` / `+=`; NumPy raises on a length
mismatch, `zipWith` models the equal-length case). -/
noncomputable def vadd (xs ys : List ℝ) : List ℝ := List.zipWith (· + ·) xs ys

/-- Scalar multiplication (`c * array`). -/
noncomputable def vsmul (c : ℝ) (xs : List ℝ) : List ℝ := xs.map (fun x => c * x)

/-- `np.dot`. -/
noncomputable def dotList (xs ys : List ℝ) : ℝ := (List.zipWith (· * ·) xs ys).sum

/-- Sum of squares, the square of `np.linalg.norm`. -/
noncomputable def sumSq (xs : List ℝ) : ℝ := (xs.map (fun x => x ^ 2)).sum

/-- `np.linalg.norm` (L2 norm). -/
noncomputable def l2norm (xs : List ℝ) : ℝ := Real.sqrt (sumSq xs)

/-! ## Definitions: Mandorla field (`src/scs/field.py`) -/

/-- The `MandorlaField` dataclass (`field.py`, lines 16-43) with its
default coefficients `α = 0.95`, `γ = 0.5`, `β = [0.1, 0.1, 0.1]`. -/
structure MandorlaField where
  dimension : ℕ := 16
  field_state : List ℝ := List.replicate 16 0
  alpha : ℝ := 19/20
  gamma : ℝ := 1/2
  beta_weights : List ℝ := [1/10, 1/10, 1/10]
  submodule_states : List (List ℝ) := List.replicate 3 (List.replicate 16 0)

/-- `MandorlaField(dimension=n)` as produced by `__post_init__`
(`field.py`, lines 36-43): a zero state of length `n` and one zero
submodule per β weight. -/
noncomputable def mkMandorla (n : ℕ) : MandorlaField :=
  { dimension := n
    field_state := List.replicate n 0
    submodule_states := [List.replicate n 0, List.replicate n 0, List.replicate n 0] }

/-- The length invariants `__post_init__` establishes and NumPy
broadcasting requires: the state and every submodule have length
`dimension`.  (`zip(beta_weights, submodule_states)` truncates in
Python exactly as `List.zip` does, so no constraint ties the β list to
the submodule list.) -/
def WellFormed (f : MandorlaField) : Prop :=
  f.field_state.length = f.dimension ∧
    ∀ g ∈ f.submodule_states, g.length = f.dimension

/-- The combined vector `α·M(t) + Σᵢ βᵢ·Gᵢ(t) + γ·Iₜ` accumulated by
`MandorlaField.update` (`field.py`, lines 59-67), in the code's loop
order. -/
noncomputable def combinedState (f : MandorlaField) (injection : List ℝ) : List ℝ :=
  vadd ((f.beta_weights.zip f.submodule_states).foldl
      (fun acc bg => vadd acc (vsmul bg.1 bg.2)) (vsmul f.alpha f.field_state))
    (vsmul f.gamma injection)

/-- `MandorlaField.update` (`field.py`, lines 45-74): raise on an
injection length mismatch (before touching any state), else set the
state to the normalised combined vector, leaving it unnormalised only
when the norm is not positive (i.e. the combined vector is zero). -/
noncomputable def MandorlaField.update (f : MandorlaField) (injection : List ℝ) :
    Except String MandorlaField :=
  if injection.length ≠ f.dimension then
    .error "Injection dimension mismatch"
  else if 0 < l2norm (combinedState f injection) then
    .ok { f with field_state :=
      (combinedState f injection).map (fun x => x / l2norm (combinedState f injection)) }
  else .ok { f with field_state := combinedState f injection }

/-- A sequence of successive `update` calls, stopping at the first
raise. -/
noncomputable def updateSeq :
    MandorlaField → List (List ℝ) → Except String MandorlaField
  | f, [] => .ok f
  | f, inj :: rest =>
      match f.update inj with
      | .error e => .error e
      | .ok f' => updateSeq f' rest

/-- The `algorithm_map` of `MandorlaField.update_submodules`
(`field.py`, lines 85-94), including the `.get(algorithm, 0)`
fallback to slot 0 for unknown names. -/
def algorithmSlot (algorithm : String) : ℕ :=
  if algorithm = "VQE" then 0
  else if algorithm = "QAOA" then 1
  else if algorithm = "QuantumWalk" then 2
  else if algorithm = "Grover" then 0
  else if algorithm = "Boson" then 1
  else if algorithm = "VQC" then 2
  else 0

/-- The encoded performance vector built by `update_submodules`
(`field.py`, lines 96-107): the triplet, its harmonic and geometric
means, then `sin`-harmonics weighted by ψ.  (Python would raise an
`IndexError` for `dimension < 5`; the claims are settled for
`dimension ≥ 5`.) -/
noncomputable def encodedSubmodule (n : ℕ) (t : PerformanceTriplet) : List ℝ :=
  (List.range n).map (fun i =>
    if i = 0 then (t.psi : ℝ)
    else if i = 1 then (t.rho : ℝ)
    else if i = 2 then (t.omega : ℝ)
    else if i = 3 then (t.harmonic_mean : ℝ)
    else if i = 4 then t.geometric_mean
    else Real.sin (2 * Real.pi * i / n) * (t.psi : ℝ))

/-- `MandorlaField.update_submodules` (`field.py`, lines 76-110):
select a submodule slot via the algorithm map (mod the number of
submodules), and blend the encoded performance into that slot with the
fixed 80%/20% decay.  Only the selected slot is written. -/
noncomputable def update_submodules (f : MandorlaField) (t : PerformanceTriplet)
    (algorithm : String) : MandorlaField :=
  let idx := algorithmSlot algorithm % f.submodule_states.length
  let blended := vadd (vsmul (4/5) (f.submodule_states.getD idx []))
    (vsmul (1/5) (encodedSubmodule f.dimension t))
  { f with submodule_states := f.submodule_states.set idx blended }

/-- The epsilon stabiliser `1e-10` of `resonance_with`
(`field.py`, lines 123-124). -/
noncomputable def epsStab : ℝ := 1 / 10 ^ 10

/-- The cosine-similarity computation of `MandorlaField.resonance_with`
(`field.py`, lines 122-128): the dot product of the two
epsilon-stabilised normalisations. -/
noncomputable def cosineSim (f : MandorlaField) (injection : List ℝ) : ℝ :=
  dotList (f.field_state.map (fun x => x / (l2norm f.field_state + epsStab)))
    (injection.map (fun x => x / (l2norm injection + epsStab)))

/-- `MandorlaField.resonance_with` (`field.py`, lines 112-128),
including the dimension guard. -/
noncomputable def resonance_with (f : MandorlaField) (injection : List ℝ) :
    Except String ℝ :=
  if injection.length ≠ f.dimension then .error "Injection dimension mismatch"
  else .ok (cosineSim f injection)

/-! ## Definitions: feedback encoder (`src/scs/field.py`, lines 164-240) -/

/-- Slot `i` of `SeraphicFeedback.encode` (`field.py`, lines 190-218):
the triplet, three derived scalars, three products, then the harmonic
tail.  (Python would raise an `IndexError` for `field_dimension < 9`;
the claims use the default dimension 16.) -/
noncomputable def encodeComponent (n : ℕ) (t : PerformanceTriplet) (i : ℕ) : ℝ :=
  if i = 0 then (t.psi : ℝ)
  else if i = 1 then (t.rho : ℝ)
  else if i = 2 then (t.omega : ℝ)
  else if i = 3 then (t.harmonic_mean : ℝ)
  else if i = 4 then t.geometric_mean
  else if i = 5 then t.tnorm
  else if i = 6 then (t.psi : ℝ) * (t.rho : ℝ)
  else if i = 7 then (t.psi : ℝ) * (t.omega : ℝ)
  else if i = 8 then (t.psi : ℝ) * (t.rho : ℝ) * (t.omega : ℝ)
  else 2/5 * Real.sin (2 * Real.pi * i / n) * (t.psi : ℝ)
    + 3/10 * Real.cos (2 * Real.pi * i / n) * (t.rho : ℝ)
    + 3/10 * Real.sin (2 * (2 * Real.pi * i / n)) * (t.omega : ℝ)

/-- `SeraphicFeedback.encode` (`field.py`, lines 175-220); the optional
raw-benchmark argument is unused by the code. -/
noncomputable def encode (n : ℕ) (t : PerformanceTriplet) : List ℝ :=
  (List.range n).map (encodeComponent n t)

/-! ## Definitions: Proof-of-Resonance (`src/scs/por.py`) -/

/-- The `PoRCriteria` dataclass (`por.py`, lines 17-33) with its
defaults. -/
structure PoRCriteria where
  min_quality_delta : ℚ := 0
  stability_tolerance : ℚ := 1/10
  min_efficiency : ℚ := 3/10
  min_field_resonance : ℚ := 0
  deriving DecidableEq, Repr

/-- `ProofOfResonance._check_quality` (`por.py`, lines 98-106). -/
def check_quality (crit : PoRCriteria) (current candidate : PerformanceTriplet) :
    Prop :=
  current.psi + crit.min_quality_delta ≤ candidate.psi

/-- `ProofOfResonance._check_stability` (`por.py`, lines 108-116). -/
def check_stability (crit : PoRCriteria) (current candidate : PerformanceTriplet) :
    Prop :=
  current.rho - crit.stability_tolerance ≤ candidate.rho

/-- `ProofOfResonance._check_efficiency` (`por.py`, lines 118-122). -/
def check_efficiency (crit : PoRCriteria) (candidate : PerformanceTriplet) : Prop :=
  crit.min_efficiency ≤ candidate.omega

/-- `ProofOfResonance._check_field_resonance` (`por.py`, lines
124-133).  The calibrator always supplies an injection of the field's
dimension, so the `resonance_with` length guard (modelled separately)
cannot fire there and the criterion reduces to the cosine-similarity
threshold. -/
def check_field_resonance (crit : PoRCriteria) (f : MandorlaField)
    (injection : List ℝ) : Prop :=
  (crit.min_field_resonance : ℝ) ≤ cosineSim f injection

/-- `ProofOfResonance.check` (`por.py`, lines 56-96): the conjunction of
the four criteria in the code's early-return order; the field-resonance
criterion applies only when both a field and an injection are
supplied. -/
def porCheck (crit : PoRCriteria) (current candidate : PerformanceTriplet)
    (field? : Option MandorlaField) (injection? : Option (List ℝ)) : Prop :=
  check_quality crit current candidate ∧
    (check_stability crit current candidate ∧
      (check_efficiency crit candidate ∧
        match field?, injection? with
        | some f, some inj => check_field_resonance crit f inj
        | _, _ => True))

/-! ## Definitions: calibrator orchestrator (`src/scs/calibrator.py`)

The acceptance and trigger conditions are propositions over `ℝ`; the
orchestrator branches on them classically. -/

open scoped Classical

/-- `SeraphicCalibrator._estimate_candidate_performance`
(`calibrator.py`, lines 266-299): heuristic bumps applied to the current
triplet, each clamped by `min(1.0, ·)`. -/
def estimateCandidatePerformance (cur : PerformanceTriplet)
    (config : Configuration) : PerformanceTriplet :=
  let psi1 := if config.ansatz_type = "Metatron" ∧ 1 ≤ config.ansatz_depth ∧
      config.ansatz_depth ≤ 3 then min 1 (cur.psi + 1/50) else cur.psi
  let psi2 := if config.optimizer = "Adam" then min 1 (psi1 + 1/100) else psi1
  let rho1 := if 3 ≤ config.num_random_starts then min 1 (cur.rho + 3/100)
    else cur.rho
  let om1 := if config.ansatz_depth ≤ 2 then min 1 (cur.omega + 1/50)
    else cur.omega
  ⟨psi2, rho1, om1⟩

/-- `ResonanceImpulse.should_trigger` (`cri.py`, lines 150-178): enough
steps since the last impulse, stagnation or degradation, and field
energy (the L2 norm of the field state) at least
`min_field_resonance`. -/
noncomputable def should_trigger (r : ResonanceImpulse) (f : MandorlaField) :
    Prop :=
  r.config.min_steps ≤ r.steps_since_last_impulse ∧
    (is_stagnating r.global_state r.config.stagnation_threshold = true ∨
      is_degrading r.global_state r.config.degradation_threshold = true) ∧
    (r.config.min_field_resonance : ℝ) ≤ l2norm f.field_state

/-- One record of `CalibrationHistory.add_step` (`calibrator.py`, lines
35-55); the wall-clock timestamp is environmental and omitted. -/
structure StepRecord where
  step : ℕ
  config : Configuration
  performance : PerformanceTriplet
  j_t : ℚ
  por_accepted : Bool
  cri_triggered : Bool

/-- The in-memory state of a `SeraphicCalibrator` (`calibrator.py`,
lines 105-132) under the default `CalibratorConfig` (field dimension 16,
default PoR criteria and CRI config, SCS enabled). -/
structure CalibratorState where
  enabled : Bool
  field_dimension : ℕ
  por_criteria : PoRCriteria
  space : ConfigSpaceState
  field : MandorlaField
  cri : ResonanceImpulse
  current_config : Option Configuration
  current_performance : Option PerformanceTriplet
  step_count : ℕ
  history : List StepRecord

/-- `SeraphicCalibrator.initialize` (`calibrator.py`, lines 134-159)
with the default calibrator configuration: validate the seed
configuration, record it in the configuration space, compute the
initial triplet from the loaded benchmarks, perform one field update
and one CRI update. -/
noncomputable def initializeCalibrator (bench : List BenchEntry)
    (initial : Configuration) : Except String CalibratorState :=
  if ¬ is_valid initial then .error "Invalid initial configuration"
  else
    match set_current {} initial with
    | .error e => .error e
    | .ok sp =>
        match (mkMandorla 16).update (encode 16 (compute_performance_triplet bench)) with
        | .error e => .error e
        | .ok f1 =>
            .ok { enabled := true
                  field_dimension := 16
                  por_criteria := {}
                  space := sp
                  field := f1
                  cri := (ResonanceImpulse.update {}
                    (compute_performance_triplet bench)).1
                  current_config := some initial
                  current_performance := some (compute_performance_triplet bench)
                  step_count := 0
                  history := [] }

/-- The value returned by one `calibration_step` call: either the
SCS-disabled shortcut or the `accepted` / `cri_triggered` flags of the
step-result dictionary. -/
inductive StepReturn where
  | disabled
  | done (accepted : Bool) (cri_triggered : Bool)
  deriving DecidableEq, Repr

/-- Step 5 onwards of `calibration_step` (`calibrator.py`, lines
233-264): the CRI update on the (possibly just-replaced) current
performance, the optional resonance impulse, and the history record.
`current_config` is always `some` at this point; the `getD` default is
never reached. -/
noncomputable def stepFinish (s : CalibratorState)
    (perfNow : PerformanceTriplet) (accepted : Bool) :
    Except CalibratorState (CalibratorState × StepReturn) :=
  let uj := s.cri.update perfNow
  let s4 := { s with cri := uj.1 }
  if should_trigger uj.1 s4.field then
    let ri := apply_impulse uj.1 (s4.current_config.getD default_configuration)
    match set_current s4.space ri.2 with
    | .error _ => .error { s4 with cri := ri.1, current_config := some ri.2 }
    | .ok sp5 =>
        let s5 := { s4 with cri := ri.1, current_config := some ri.2, space := sp5 }
        let rec5 : StepRecord := ⟨s5.step_count, ri.2, perfNow, uj.2, accepted, true⟩
        .ok ({ s5 with history := s5.history ++ [rec5] }, .done accepted true)
  else
    let rec4 : StepRecord := ⟨s4.step_count, s4.current_config.getD default_configuration, perfNow, uj.2, accepted, false⟩
    .ok ({ s4 with history := s4.history ++ [rec4] }, .done accepted false)

/-- `SeraphicCalibrator.calibration_step` (`calibrator.py`, lines
161-264).  `bench` is the outcome of the benchmark load (an external
collaborator that may raise); `draws` are the random draws consumed by
the double-kick operator.  A raise is modelled as `.error` carrying the
in-memory state exactly as it stands at the point of the raise: the
disabled shortcut returns before anything happens, the
not-initialized check fires before the step counter bump, the
benchmark load runs after it, the field update precedes the
`update_submodules` call (which needs `current_performance`, raises on
`dimension < 5` and on an empty submodule list), and the
`set_current` validity raise happens after `current_config` and
`current_performance` were already replaced. -/
noncomputable def calibration_step (s : CalibratorState)
    (bench : Except Unit (List BenchEntry)) (draws : DoubleKickDraws) :
    Except CalibratorState (CalibratorState × StepReturn) :=
  if s.enabled = false then .ok (s, .disabled)
  else
    match s.current_config with
    | none => .error s
    | some cfg =>
        let s1 := { s with step_count := s.step_count + 1 }
        match bench with
        | .error _ => .error s1
        | .ok bs =>
            let inj := encode s.field_dimension (compute_performance_triplet bs)
            match s1.field.update inj with
            | .error _ => .error s1
            | .ok f1 =>
                let s2 := { s1 with field := f1 }
                match s.current_performance with
                | none => .error s2
                | some perf =>
                    if f1.dimension < 5 ∨ f1.submodule_states.length = 0 then
                      .error s2
                    else
                      let f2 := update_submodules f1 perf cfg.algorithm
                      let s3 := { s2 with field := f2 }
                      let candidate := doubleKickApply draws cfg perf
                      let cand_perf := estimateCandidatePerformance perf candidate
                      let cand_inj := encode s.field_dimension cand_perf
                      if porCheck s.por_criteria perf cand_perf (some f2) (some cand_inj) then
                        match set_current s3.space candidate with
                        | .error _ =>
                            .error { s3 with current_config := some candidate, current_performance := some cand_perf }
                        | .ok sp4 =>
                            let sAcc := { s3 with current_config := some candidate, current_performance := some cand_perf, space := sp4 }
                            stepFinish sAcc cand_perf true
                      else
                        stepFinish s3 perf false

/-! ## Definitions: concrete instances used in counterexamples -/

/-- The injection encoded from the neutral triplet at the default field
dimension 16 — the injection used by both `initialize` and the first
`calibration_step` when no benchmark files load. -/
noncomputable def injP : List ℝ := encode 16 neutralTriplet

/-- The field produced by `initialize` from empty benchmarks: the
normalised `γ`-scaled neutral injection. -/
noncomputable def c1InitField : MandorlaField :=
  let comb := combinedState (mkMandorla 16) injP
  { mkMandorla 16 with field_state := comb.map (fun x => x / l2norm comb) }

/-- The calibrator state after `initialize()` with the default
configuration and an empty benchmark set. -/
noncomputable def c1s0 : CalibratorState :=
  { enabled := true
    field_dimension := 16
    por_criteria := {}
    space := { current := some default_configuration,
               history := [default_configuration] }
    field := c1InitField
    cri := { config := {},
             global_state := { history := [1/8], window_size := 5 },
             steps_since_last_impulse := 1 }
    current_config := some default_configuration
    current_performance := some neutralTriplet
    step_count := 0
    history := [] }

/-- A small concrete calibrator state used to exhibit the
non-atomicity of `calibration_step` on a benchmark-load failure. -/
noncomputable def c3State : CalibratorState :=
  { enabled := true
    field_dimension := 1
    por_criteria := {}
    space := { current := some default_configuration,
               history := [default_configuration] }
    field := mkMandorla 1
    cri := {}
    current_config := some default_configuration
    current_performance := some neutralTriplet
    step_count := 0
    history := [] }

/-- A one-dimensional field with unit state, used to exhibit the
epsilon-stabilisation effect of `resonance_with`. -/
noncomputable def c5Field : MandorlaField := { mkMandorla 1 with field_state := [1] }

/-- The default configuration with ansatz depth 1 (the result of a
depth-decreasing neighbor draw from the default configuration). -/
def depthOneConfig : Configuration := { default_configuration with ansatz_depth := 1 }

/-- Eight identical neighbor draws (the code samples 8 neighbors per
kick). -/
def eightDraws (d : NeighborDraw) : List NeighborDraw := [d, d, d, d, d, d, d, d]

/-- A concrete outcome of the random draws for two iterations of the
double-kick operator: iteration 0 kicks the depth down to 1 and keeps it
there, iteration 1 kicks it back up to 2 and keeps it there (8 neighbor
draws per kick, as in the code). -/
def c8draws (i : ℕ) : DoubleKickDraws :=
  if i = 0 then ⟨eightDraws (.depth 0), eightDraws (.depth 1)⟩
  else ⟨eightDraws (.depth 2), eightDraws (.depth 1)⟩

/-- A concrete outcome of the step's random draws for which every
sampled neighbor is the unchanged default configuration (sixteen
depth-draws of `0`). -/
def c1draws : DoubleKickDraws := ⟨eightDraws (.depth 1), eightDraws (.depth 1)⟩

end SCS

namespace SCS

/-! ## Theorems -/

/-- `is_valid` unfolded into the conjunction of its (negated) guards. -/
theorem is_valid_iff (c : Configuration) :
    is_valid c = true ↔
      c.algorithm ∈ ALGORITHMS ∧ c.ansatz_type ∈ ANSATZ_TYPES ∧
      c.optimizer ∈ OPTIMIZERS ∧ ¬(c.ansatz_depth < 1 ∨ c.ansatz_depth > 10) ∧
      ¬(c.learning_rate ≤ 0 ∨ c.learning_rate > 1) ∧ ¬(c.max_iterations < 1) := by
  simp only [is_valid]
  split_ifs with h1 h2 h3 h4 h5 h6 <;> simp_all

/-- Every single-parameter perturbation of a valid configuration is
valid: the clamps in `generate_neighbors` keep every numeric field in
its `is_valid` range and discrete draws come from the allowed lists. -/
theorem applyDraw_valid (c : Configuration) (d : NeighborDraw)
    (hc : is_valid c = true) : is_valid (applyDraw c d) = true := by
  rw [is_valid_iff] at hc ⊢
  obtain ⟨h1, h2, h3, h4, h5, h6⟩ := hc
  cases d with
  | depth i =>
      refine ⟨h1, h2, h3, ?_, h5, h6⟩
      simp only [applyDraw]
      omega
  | lr u =>
      refine ⟨h1, h2, h3, h4, ?_, h6⟩
      simp only [applyDraw, not_or, not_le, not_lt]
      constructor
      · exact lt_of_lt_of_le (by norm_num) (le_max_left _ _)
      · exact max_le (by norm_num) (le_trans (min_le_left _ _) (by norm_num))
  | maxIter i =>
      refine ⟨h1, h2, h3, h4, h5, ?_⟩
      simp only [applyDraw]
      omega
  | starts i =>
      exact ⟨h1, h2, h3, h4, h5, h6⟩
  | optimizer i =>
      refine ⟨h1, h2, ?_, h4, h5, h6⟩
      show OPTIMIZERS.getD i.val "Adam" ∈ OPTIMIZERS
      fin_cases i <;> simp [OPTIMIZERS]
  | ansatz i =>
      refine ⟨h1, ?_, h3, h4, h5, h6⟩
      show ANSATZ_TYPES.getD i.val "HardwareEfficient" ∈ ANSATZ_TYPES
      fin_cases i <;> simp [ANSATZ_TYPES]

/-- **C7.** For every valid configuration `c` and every outcome of the
random perturbation draws, `generate_neighbors` returns at most one
configuration per draw (so at most `k` of them when `k` draws are made,
possibly fewer), every returned configuration satisfies `is_valid`, and
in fact every perturbed copy is valid before the filter runs. -/
theorem generate_neighbors_valid (c : Configuration)
    (hc : is_valid c = true) (draws : List NeighborDraw) :
    (generate_neighbors c draws).length ≤ draws.length ∧
      (∀ n ∈ generate_neighbors c draws, is_valid n = true) ∧
      ∀ d ∈ draws, is_valid (applyDraw c d) = true := by
  refine ⟨?_, ?_, ?_⟩
  · calc (generate_neighbors c draws).length
        ≤ (draws.map (applyDraw c)).length := List.length_filter_le _ _
      _ = draws.length := List.length_map _ _
  · intro n hn
    exact List.of_mem_filter hn
  · intro d _
    exact applyDraw_valid c d hc

/-- The default configuration is valid. -/
theorem default_configuration_valid : is_valid default_configuration = true := by
  rw [is_valid_iff]
  refine ⟨by decide, by decide, by decide, by decide, ?_, by decide⟩
  simp only [default_configuration, not_or, not_le, not_lt]
  norm_num

/-- **C6.** For every `GlobalCalibrationState` (with a positive window
size, the regime in which Python's negative slicing is meaningful) and
every threshold: `is_stagnating` is `false` whenever fewer than
`window_size` entries exist; otherwise it is `true` iff the variance of
the most recent window is `≤ threshold` and either fewer than
`2·window_size` entries exist or the recent mean does not exceed the
preceding window's mean by more than `threshold`. -/
theorem is_stagnating_spec (s : GlobalCalibrationState) (t : ℚ)
    (_hw : 0 < s.window_size) :
    (s.history.length < s.window_size → is_stagnating s t = false) ∧
      (s.window_size ≤ s.history.length →
        (is_stagnating s t = true ↔
          listVar (lastWindow s) ≤ t ∧
            (s.history.length < 2 * s.window_size ∨
              listMean (lastWindow s) ≤ listMean (prevWindow s) + t))) := by
  constructor
  · intro h
    simp [is_stagnating, h]
  · intro h
    simp only [is_stagnating, if_neg (not_lt.mpr h)]
    split_ifs with h2 h3
    · simp only [Bool.false_eq_true, false_iff, not_and_or, not_le]
      exact Or.inl h2
    · simp only [Bool.false_eq_true, false_iff, not_and_or]
      right
      push_neg
      exact ⟨h3.1, h3.2⟩
    · simp only [true_iff]
      refine ⟨not_lt.mp h2, ?_⟩
      rcases not_and_or.mp h3 with h4 | h4
      · exact Or.inl (not_le.mp h4)
      · exact Or.inr (not_lt.mp h4)

/-- Witness for C6 at concrete inputs: a three-entry history with window
2 is stagnating (zero variance, no improving trend data needed), and a
one-entry history with window 2 is not. -/
theorem is_stagnating_spec_witness :
    is_stagnating ⟨[1/2, 1/2, 1/2], 2⟩ (1/100) = true ∧
      is_stagnating ⟨[1/2], 2⟩ (1/100) = false := by
  have h1 := (is_stagnating_spec ⟨[1/2, 1/2, 1/2], 2⟩ (1/100) (by norm_num)).2
    (by simp)
  have h2 := (is_stagnating_spec ⟨[1/2], 2⟩ (1/100) (by norm_num)).1 (by simp)
  refine ⟨h1.mpr ⟨?_, Or.inl (by simp)⟩, h2⟩
  norm_num [listVar, listMean, lastWindow]

/-- `getLastD` does not depend on the default for nonempty lists. -/
theorem getLastD_irrel (l : List ℚ) (a b : ℚ) (h : l ≠ []) :
    l.getLastD a = l.getLastD b := by
  cases l with
  | nil => exact absurd rfl h
  | cons x xs => rw [List.getLastD_cons, List.getLastD_cons]

/-- Loop invariant of `DoubleKickOperator.iterate`: at most `fuel`
distances are recorded, all but the last recorded distance are
`≥ 0.01`, and the loop stopped before exhausting its fuel only because
the last recorded distance dropped below `0.01`. -/
theorem iterateAux_distances (draws : ℕ → DoubleKickDraws)
    (perf : PerformanceTriplet) :
    ∀ (fuel i : ℕ) (c : Configuration),
      (iterateAux draws perf i fuel c).2.length ≤ fuel ∧
      (∀ k, k + 1 < (iterateAux draws perf i fuel c).2.length →
        1/100 ≤ (iterateAux draws perf i fuel c).2.getD k 0) ∧
      ((iterateAux draws perf i fuel c).2.length < fuel →
        (iterateAux draws perf i fuel c).2 ≠ [] ∧
          (iterateAux draws perf i fuel c).2.getLastD 0 < 1/100) := by
  intro fuel
  induction fuel with
  | zero =>
      intro i c
      simp [iterateAux]
  | succ fuel ih =>
      intro i c
      by_cases hd : distance c (doubleKickApply (draws i) c perf) < 1/100
      · rw [show iterateAux draws perf i (fuel + 1) c =
            (c, [distance c (doubleKickApply (draws i) c perf)]) from by
          simp only [iterateAux]
          rw [if_pos hd]]
        refine ⟨by simp, ?_, ?_⟩
        · intro k hk
          simp at hk
        · intro _
          exact ⟨by simp, by simpa using hd⟩
      · obtain ⟨ih1, ih2, ih3⟩ := ih (i + 1) (doubleKickApply (draws i) c perf)
        rw [show iterateAux draws perf i (fuel + 1) c =
            ((iterateAux draws perf (i + 1) fuel
                (doubleKickApply (draws i) c perf)).1,
              distance c (doubleKickApply (draws i) c perf) ::
                (iterateAux draws perf (i + 1) fuel
                  (doubleKickApply (draws i) c perf)).2) from by
          simp only [iterateAux]
          rw [if_neg hd]]
        refine ⟨by simpa using ih1, ?_, ?_⟩
        · intro k hk
          cases k with
          | zero =>
              simpa using not_lt.mp hd
          | succ k =>
              simp only [List.getD_cons_succ]
              exact ih2 k (by simpa using hk)
        · intro hlen
          have hlen' : (iterateAux draws perf (i + 1) fuel
              (doubleKickApply (draws i) c perf)).2.length < fuel := by
            simpa using hlen
          obtain ⟨hne, hlast⟩ := ih3 hlen'
          refine ⟨by simp, ?_⟩
          rw [List.getLastD_cons, getLastD_irrel _ _ 0 hne]
          exact hlast

/-- **C8 (amended).** `iterate` stops early as soon as the distance
between successive configurations drops below `0.01` (every recorded
distance but the last is `≥ 0.01`, and the loop used fewer than
`maxIterations` rounds only if the last distance dropped below `0.01`);
the returned convergence-rate estimate equals the last recorded
distance divided by the *epsilon-stabilized* first distance
(`first + 1e-10`), and equals `0` when at most one distance (or none)
was recorded. -/
theorem doubleKickIterate_spec (draws : ℕ → DoubleKickDraws)
    (config : Configuration) (perf : PerformanceTriplet) (n : ℕ) :
    (doubleKickIterate draws config perf n).1 =
        (iterateAux draws perf 0 n config).1 ∧
      (iterateAux draws perf 0 n config).2.length ≤ n ∧
      (∀ k, k + 1 < (iterateAux draws perf 0 n config).2.length →
        1/100 ≤ (iterateAux draws perf 0 n config).2.getD k 0) ∧
      ((iterateAux draws perf 0 n config).2.length < n →
        (iterateAux draws perf 0 n config).2 ≠ [] ∧
          (iterateAux draws perf 0 n config).2.getLastD 0 < 1/100) ∧
      (doubleKickIterate draws config perf n).2 =
        (if 2 ≤ (iterateAux draws perf 0 n config).2.length then
          (iterateAux draws perf 0 n config).2.getLastD 0 /
            ((iterateAux draws perf 0 n config).2.headD 0 + 1/10 ^ 10)
        else 0) := by
  obtain ⟨h1, h2, h3⟩ := iterateAux_distances draws perf n 0 config
  exact ⟨rfl, h1, h2, h3, rfl⟩

/-- A sum of squares is nonnegative. -/
theorem sumSq_nonneg (xs : List ℝ) : 0 ≤ sumSq xs := by
  apply List.sum_nonneg
  intro x hx
  obtain ⟨y, _, rfl⟩ := List.mem_map.mp hx
  positivity

/-- The L2 norm is nonnegative. -/
theorem l2norm_nonneg (xs : List ℝ) : 0 ≤ l2norm xs := Real.sqrt_nonneg _

/-- A sum of squares vanishes exactly on the zero vector. -/
theorem sumSq_eq_zero_iff (xs : List ℝ) : sumSq xs = 0 ↔ ∀ x ∈ xs, x = 0 := by
  induction xs with
  | nil => simp [sumSq]
  | cons x xs ih =>
      simp only [sumSq, List.map_cons, List.sum_cons] at *
      constructor
      · intro h
        have hx2 : (0:ℝ) ≤ x ^ 2 := sq_nonneg x
        have hs : 0 ≤ (xs.map (fun x => x ^ 2)).sum := sumSq_nonneg xs
        have hx0 : x = 0 := by
          have : x ^ 2 = 0 := by nlinarith
          exact pow_eq_zero_iff (n := 2) (by norm_num) |>.mp this
        have hrest := ih.mp (by nlinarith)
        intro y hy
        rcases List.mem_cons.mp hy with rfl | hy
        · exact hx0
        · exact hrest y hy
      · intro h
        have hx0 : x = 0 := h x (List.mem_cons_self x xs)
        have hrest : (xs.map (fun x => x ^ 2)).sum = 0 :=
          ih.mpr (fun y hy => h y (List.mem_cons_of_mem x hy))
        simp [hx0, hrest]

/-- The L2 norm vanishes exactly on the zero vector. -/
theorem l2norm_eq_zero_iff (xs : List ℝ) : l2norm xs = 0 ↔ ∀ x ∈ xs, x = 0 := by
  rw [l2norm, Real.sqrt_eq_zero (sumSq_nonneg xs), sumSq_eq_zero_iff]

/-- Scaling a vector by `1/c` scales its sum of squares by `1/c²`. -/
theorem sumSq_map_div (xs : List ℝ) (c : ℝ) :
    sumSq (xs.map (fun x => x / c)) = sumSq xs / c ^ 2 := by
  induction xs with
  | nil => simp [sumSq]
  | cons x xs ih =>
      simp only [sumSq, List.map_cons, List.sum_cons] at ih ⊢
      rw [div_pow, ih, add_div]

/-- Dividing a vector by a positive scalar divides its L2 norm. -/
theorem l2norm_map_div (xs : List ℝ) (c : ℝ) (hc : 0 < c) :
    l2norm (xs.map (fun x => x / c)) = l2norm xs / c := by
  rw [l2norm, sumSq_map_div, Real.sqrt_div (sumSq_nonneg xs), Real.sqrt_sq hc.le]
  rfl

/-- Scaling a vector scales its sum of squares quadratically. -/
theorem sumSq_map_mul (xs : List ℝ) (k : ℝ) :
    sumSq (xs.map (fun x => k * x)) = k ^ 2 * sumSq xs := by
  induction xs with
  | nil => simp [sumSq]
  | cons x xs ih =>
      simp only [sumSq, List.map_cons, List.sum_cons] at ih ⊢
      rw [mul_pow, ih, mul_add]

/-- Scaling a vector scales its L2 norm by the absolute scale factor. -/
theorem l2norm_map_mul (xs : List ℝ) (k : ℝ) :
    l2norm (xs.map (fun x => k * x)) = |k| * l2norm xs := by
  rw [l2norm, sumSq_map_mul, Real.sqrt_mul (sq_nonneg k), Real.sqrt_sq_eq_abs]
  rfl

/-- `np.dot` against a scaled right argument. -/
theorem dotList_map_mul_right (xs : List ℝ) (k : ℝ) :
    ∀ ys : List ℝ, dotList xs (ys.map (fun y => k * y)) = k * dotList xs ys := by
  induction xs with
  | nil => intro ys; simp [dotList]
  | cons x xs ih =>
      intro ys
      cases ys with
      | nil => simp [dotList]
      | cons y ys =>
          simp only [dotList, List.map_cons, List.zipWith_cons_cons,
            List.sum_cons] at ih ⊢
          rw [ih]
          ring

/-- `np.dot` against a right argument divided by a scalar. -/
theorem dotList_map_div_right (xs : List ℝ) (c : ℝ) :
    ∀ ys : List ℝ, dotList xs (ys.map (fun y => y / c)) = dotList xs ys / c := by
  induction xs with
  | nil => intro ys; simp [dotList]
  | cons x xs ih =>
      intro ys
      cases ys with
      | nil => simp [dotList]
      | cons y ys =>
          simp only [dotList, List.map_cons, List.zipWith_cons_cons,
            List.sum_cons] at ih ⊢
          rw [ih, add_div, mul_div_assoc]

/-- `np.dot` against a left argument divided by a scalar. -/
theorem dotList_map_div_left (xs : List ℝ) (c : ℝ) :
    ∀ ys : List ℝ, dotList (xs.map (fun x => x / c)) ys = dotList xs ys / c := by
  induction xs with
  | nil => intro ys; simp [dotList]
  | cons x xs ih =>
      intro ys
      cases ys with
      | nil => simp [dotList]
      | cons y ys =>
          simp only [dotList, List.map_cons, List.zipWith_cons_cons,
            List.sum_cons] at ih ⊢
          rw [ih, add_div, div_mul_eq_mul_div]

/-- `dotList` as a finite sum over indices. -/
theorem dotList_eq_sum (xs : List ℝ) :
    ∀ ys : List ℝ, dotList xs ys =
      ∑ i ∈ Finset.range (min xs.length ys.length), xs.getD i 0 * ys.getD i 0 := by
  induction xs with
  | nil => intro ys; simp [dotList]
  | cons x xs ih =>
      intro ys
      cases ys with
      | nil => simp [dotList]
      | cons y ys =>
          rw [show dotList (x :: xs) (y :: ys) = x * y + dotList xs ys from by
            simp [dotList]]
          rw [List.length_cons, List.length_cons, Nat.succ_min_succ,
            Finset.sum_range_succ']
          simp only [List.getD_cons_succ, List.getD_cons_zero]
          rw [ih ys]
          ring

/-- `sumSq` as a finite sum over indices. -/
theorem sumSq_eq_sum (xs : List ℝ) :
    sumSq xs = ∑ i ∈ Finset.range xs.length, xs.getD i 0 ^ 2 := by
  induction xs with
  | nil => simp [sumSq]
  | cons x xs ih =>
      simp only [sumSq, List.map_cons, List.sum_cons, List.length_cons] at ih ⊢
      rw [Finset.sum_range_succ']
      simp only [List.getD_cons_succ, List.getD_cons_zero]
      rw [← ih]
      ring

/-- Cauchy-Schwarz for `dotList`. -/
theorem dotList_sq_le (xs ys : List ℝ) :
    dotList xs ys ^ 2 ≤ sumSq xs * sumSq ys := by
  rw [dotList_eq_sum]
  refine (Finset.sum_mul_sq_le_sq_mul_sq _ (fun i => xs.getD i 0)
    (fun i => ys.getD i 0)).trans ?_
  have hx : ∑ i ∈ Finset.range (min xs.length ys.length), xs.getD i 0 ^ 2 ≤
      sumSq xs := by
    rw [sumSq_eq_sum]
    exact Finset.sum_le_sum_of_subset_of_nonneg
      (Finset.range_subset.mpr (min_le_left _ _)) (fun i _ _ => sq_nonneg _)
  have hy : ∑ i ∈ Finset.range (min xs.length ys.length), ys.getD i 0 ^ 2 ≤
      sumSq ys := by
    rw [sumSq_eq_sum]
    exact Finset.sum_le_sum_of_subset_of_nonneg
      (Finset.range_subset.mpr (min_le_right _ _)) (fun i _ _ => sq_nonneg _)
  exact mul_le_mul hx hy (Finset.sum_nonneg fun i _ => sq_nonneg _)
    (le_trans (Finset.sum_nonneg fun i _ => sq_nonneg _) hx |>.trans
      (le_of_eq rfl) |> fun _ => sumSq_nonneg xs)

/-- Cauchy-Schwarz, norm form. -/
theorem abs_dotList_le (xs ys : List ℝ) :
    |dotList xs ys| ≤ l2norm xs * l2norm ys := by
  rw [show l2norm xs * l2norm ys = Real.sqrt (sumSq xs * sumSq ys) from
    (Real.sqrt_mul (sumSq_nonneg xs) _).symm,
    show |dotList xs ys| = Real.sqrt (dotList xs ys ^ 2) from
    (Real.sqrt_sq_eq_abs _).symm]
  exact Real.sqrt_le_sqrt (dotList_sq_le xs ys)

/-- `vadd`, `vsmul` and `List.map` interact with `List.length` as
expected. -/
theorem vadd_length (xs ys : List ℝ) :
    (vadd xs ys).length = min xs.length ys.length := by
  simp [vadd]

/-- `vsmul` preserves length. -/
theorem vsmul_length (c : ℝ) (xs : List ℝ) : (vsmul c xs).length = xs.length := by
  simp [vsmul]

/-- The submodule accumulation loop of `update` preserves the vector
length when every submodule has the right length. -/
theorem foldl_vadd_length (n : ℕ) :
    ∀ (l : List (ℝ × List ℝ)) (acc : List ℝ), acc.length = n →
      (∀ p ∈ l, p.2.length = n) →
      (l.foldl (fun acc bg => vadd acc (vsmul bg.1 bg.2)) acc).length = n := by
  intro l
  induction l with
  | nil => intro acc hacc _; simpa using hacc
  | cons p l ih =>
      intro acc hacc hl
      simp only [List.foldl_cons]
      refine ih _ ?_ (fun q hq => hl q (List.mem_cons_of_mem p hq))
      rw [vadd_length, vsmul_length, hacc, hl p (List.mem_cons_self p l), min_self]

/-- The combined vector of `update` has the field's dimension for
well-formed fields and matching injections. -/
theorem combinedState_length (f : MandorlaField) (inj : List ℝ)
    (hwf : WellFormed f) (hinj : inj.length = f.dimension) :
    (combinedState f inj).length = f.dimension := by
  obtain ⟨hstate, hsub⟩ := hwf
  rw [combinedState, vadd_length, vsmul_length, hinj]
  rw [foldl_vadd_length f.dimension _ _ (by rw [vsmul_length, hstate]) ?_, min_self]
  intro p hp
  exact hsub p.2 (List.of_mem_zip hp).2

/-- `update` preserves well-formedness. -/
theorem update_wf (f : MandorlaField) (inj : List ℝ) (f' : MandorlaField)
    (hwf : WellFormed f) (h : MandorlaField.update f inj = .ok f') :
    WellFormed f' := by
  by_cases hg : inj.length ≠ f.dimension
  · simp [MandorlaField.update, hg] at h
  · push_neg at hg
    have hc := combinedState_length f inj hwf hg
    by_cases hn : 0 < l2norm (combinedState f inj)
    · rw [MandorlaField.update, if_neg (by omega), if_pos hn] at h
      cases h
      exact ⟨by simpa using hc, hwf.2⟩
    · rw [MandorlaField.update, if_neg (by omega), if_neg hn] at h
      cases h
      exact ⟨hc, hwf.2⟩

/-- **C2.** For every well-formed field and injection sequence of
matching dimension: after each successful `update` the L2 norm of the
state is `1` or `0`, the zero case occurring exactly when the combined
vector `α·M + Σ βᵢ·Gᵢ + γ·I` is the zero vector; consequently after any
number of successive updates the norm is `1` or `0`. -/
theorem update_norm_dichotomy :
    (∀ (f : MandorlaField) (inj : List ℝ) (f' : MandorlaField), WellFormed f →
        MandorlaField.update f inj = .ok f' →
          l2norm f'.field_state = 1 ∨
            (l2norm f'.field_state = 0 ∧ ∀ x ∈ combinedState f inj, x = 0)) ∧
      ∀ (f : MandorlaField) (injs : List (List ℝ)) (f' : MandorlaField),
        WellFormed f → updateSeq f injs = .ok f' → injs ≠ [] →
          l2norm f'.field_state = 1 ∨ l2norm f'.field_state = 0 := by
  have hstep : ∀ (f : MandorlaField) (inj : List ℝ) (f' : MandorlaField),
      MandorlaField.update f inj = .ok f' →
        l2norm f'.field_state = 1 ∨
          (l2norm f'.field_state = 0 ∧ ∀ x ∈ combinedState f inj, x = 0) := by
    intro f inj f' h
    by_cases hg : inj.length ≠ f.dimension
    · simp [MandorlaField.update, hg] at h
    · by_cases hn : 0 < l2norm (combinedState f inj)
      · rw [MandorlaField.update, if_neg (by simpa using hg), if_pos hn] at h
        cases h
        left
        show l2norm ((combinedState f inj).map
          (fun x => x / l2norm (combinedState f inj))) = 1
        rw [l2norm_map_div _ _ hn, div_self (ne_of_gt hn)]
      · rw [MandorlaField.update, if_neg (by simpa using hg), if_neg hn] at h
        cases h
        right
        have h0 : l2norm (combinedState f inj) = 0 :=
          le_antisymm (not_lt.mp hn) (l2norm_nonneg _)
        exact ⟨h0, (l2norm_eq_zero_iff _).mp h0⟩
  refine ⟨fun f inj f' _ h => hstep f inj f' h, ?_⟩
  intro f injs
  induction injs generalizing f with
  | nil => intro f' _ _ hne; exact absurd rfl hne
  | cons inj rest ih =>
      intro f' hwf h _
      simp only [updateSeq] at h
      cases hu : MandorlaField.update f inj with
      | error e => rw [hu] at h; cases h
      | ok fmid =>
          rw [hu] at h
          cases rest with
          | nil =>
              simp only [updateSeq] at h
              cases h
              rcases hstep f inj f' hu with h1 | h1
              · exact Or.inl h1
              · exact Or.inr h1.1
          | cons i2 rest2 =>
              exact ih fmid f' (update_wf f inj fmid hwf hu) h (by simp)

/-- Witness for C2: updating the one-dimensional zero field with the
zero injection lands in the degenerate zero-norm case (and the
single-element sequence realises the many-update statement). -/
theorem update_norm_dichotomy_witness :
    ∃ f' : MandorlaField, MandorlaField.update (mkMandorla 1) [0] = .ok f' ∧
      (l2norm f'.field_state = 1 ∨
        (l2norm f'.field_state = 0 ∧ ∀ x ∈ combinedState (mkMandorla 1) [0], x = 0)) := by
  have hcomb : combinedState (mkMandorla 1) [0] = [0] := by
    simp only [combinedState, mkMandorla, vadd, vsmul]
    norm_num [List.zip, List.zipWith]
  have hn : ¬ 0 < l2norm (combinedState (mkMandorla 1) [0]) := by
    rw [hcomb]
    simp [l2norm, sumSq]
  have h : MandorlaField.update (mkMandorla 1) [0] =
      .ok { mkMandorla 1 with field_state := combinedState (mkMandorla 1) [0] } := by
    rw [MandorlaField.update, if_neg (by simp [mkMandorla]), if_neg hn]
  exact ⟨_, h, (update_norm_dichotomy.1 (mkMandorla 1) [0] _
    (by constructor <;> simp [mkMandorla, WellFormed]) h)⟩

/-- **C9.** `update` fails (with the dimension-mismatch error, raised
before any state is touched) exactly when the injection length differs
from the field dimension; with matching lengths it always succeeds (on
well-formed fields, where NumPy's elementwise operations are defined)
and returns a well-formed field. -/
theorem update_dimension_guard :
    (∀ (f : MandorlaField) (inj : List ℝ), inj.length ≠ f.dimension →
        MandorlaField.update f inj = .error "Injection dimension mismatch") ∧
      ∀ (f : MandorlaField) (inj : List ℝ), WellFormed f →
        inj.length = f.dimension →
        ∃ f', MandorlaField.update f inj = .ok f' ∧ WellFormed f' := by
  constructor
  · intro f inj h
    rw [MandorlaField.update, if_pos h]
  · intro f inj hwf h
    by_cases hn : 0 < l2norm (combinedState f inj)
    · refine ⟨_, by rw [MandorlaField.update, if_neg (by omega), if_pos hn], ?_⟩
      exact update_wf f inj _ hwf (by rw [MandorlaField.update, if_neg (by omega), if_pos hn])
    · refine ⟨_, by rw [MandorlaField.update, if_neg (by omega), if_neg hn], ?_⟩
      exact update_wf f inj _ hwf (by rw [MandorlaField.update, if_neg (by omega), if_neg hn])

/-- Witness for C9: a length-2 injection into a one-dimensional field
raises, and the matching length-1 injection succeeds. -/
theorem update_dimension_guard_witness :
    MandorlaField.update (mkMandorla 1) [1, 1] =
        .error "Injection dimension mismatch" ∧
      ∃ f', MandorlaField.update (mkMandorla 1) [0] = .ok f' ∧ WellFormed f' := by
  constructor
  · exact update_dimension_guard.1 (mkMandorla 1) [1, 1] (by simp [mkMandorla])
  · exact update_dimension_guard.2 (mkMandorla 1) [0]
      (by constructor <;> simp [mkMandorla, WellFormed]) (by simp [mkMandorla])

/-- The epsilon stabiliser is positive. -/
theorem epsStab_pos : 0 < epsStab := by
  rw [epsStab]
  norm_num

/-- **C5 (amended).** `resonance_with` always returns a value in
`[-1, 1]`; under scaling of the injection by `k > 0` the value obeys
the exact relation `res(k·inj) · (k·‖inj‖ + ε) = k · res(inj) · (‖inj‖ + ε)`
— the ε-stabilised denominators prevent exact invariance, which holds
only in the limit ε → 0 (or when the dot product vanishes). -/
theorem resonance_range_scaling :
    (∀ (f : MandorlaField) (inj : List ℝ) (r : ℝ),
        resonance_with f inj = .ok r → -1 ≤ r ∧ r ≤ 1) ∧
      ∀ (f : MandorlaField) (inj : List ℝ) (k : ℝ), 0 < k →
        cosineSim f (inj.map (fun x => k * x)) * (k * l2norm inj + epsStab) =
          k * (cosineSim f inj * (l2norm inj + epsStab)) := by
  constructor
  · intro f inj r h
    by_cases hg : inj.length ≠ f.dimension
    · rw [resonance_with, if_pos hg] at h
      cases h
    · rw [resonance_with, if_neg hg] at h
      cases h
      have hds : 0 < l2norm f.field_state + epsStab :=
        add_pos_of_nonneg_of_pos (l2norm_nonneg _) epsStab_pos
      have hdi : 0 < l2norm inj + epsStab :=
        add_pos_of_nonneg_of_pos (l2norm_nonneg _) epsStab_pos
      have habs : |cosineSim f inj| ≤ 1 := by
        rw [cosineSim]
        refine le_trans (abs_dotList_le _ _) ?_
        rw [l2norm_map_div _ _ hds, l2norm_map_div _ _ hdi]
        have h1 : l2norm f.field_state / (l2norm f.field_state + epsStab) ≤ 1 :=
          div_le_one_of_le₀ (by linarith [epsStab_pos]) hds.le
        have h2 : l2norm inj / (l2norm inj + epsStab) ≤ 1 :=
          div_le_one_of_le₀ (by linarith [epsStab_pos]) hdi.le
        calc l2norm f.field_state / (l2norm f.field_state + epsStab) *
            (l2norm inj / (l2norm inj + epsStab))
            ≤ 1 * (l2norm inj / (l2norm inj + epsStab)) :=
              mul_le_mul_of_nonneg_right h1 (div_nonneg (l2norm_nonneg _) hdi.le)
          _ ≤ 1 * 1 := mul_le_mul_of_nonneg_left h2 (by norm_num)
          _ = 1 := by norm_num
      exact abs_le.mp habs
  · intro f inj k hk
    have hnorm : l2norm (inj.map (fun x => k * x)) = k * l2norm inj := by
      rw [l2norm_map_mul, abs_of_pos hk]
    have hd1 : (0:ℝ) < k * l2norm inj + epsStab :=
      add_pos_of_nonneg_of_pos (mul_nonneg hk.le (l2norm_nonneg _)) epsStab_pos
    have hd2 : (0:ℝ) < l2norm inj + epsStab :=
      add_pos_of_nonneg_of_pos (l2norm_nonneg _) epsStab_pos
    have hcompose : (inj.map (fun x => k * x)).map
        (fun x => x / (k * l2norm inj + epsStab)) =
        (inj.map (fun x => k * x)).map (fun y => y / (k * l2norm inj + epsStab)) := rfl
    rw [cosineSim, cosineSim, hnorm]
    rw [show dotList (f.field_state.map (fun x => x / (l2norm f.field_state + epsStab)))
        ((inj.map (fun x => k * x)).map (fun x => x / (k * l2norm inj + epsStab))) =
        dotList (f.field_state.map (fun x => x / (l2norm f.field_state + epsStab)))
          (inj.map (fun x => k * x)) / (k * l2norm inj + epsStab) from
      dotList_map_div_right _ _ _]
    rw [dotList_map_mul_right]
    rw [show dotList (f.field_state.map (fun x => x / (l2norm f.field_state + epsStab)))
        (inj.map (fun x => x / (l2norm inj + epsStab))) =
        dotList (f.field_state.map (fun x => x / (l2norm f.field_state + epsStab)))
          inj / (l2norm inj + epsStab) from dotList_map_div_right _ _ _]
    field_simp

/-- Witness for C5: at a concrete one-dimensional field the resonance is
in range, and the scaling identity holds for `k = 2`. -/
theorem resonance_range_scaling_witness :
    (-1 ≤ cosineSim c5Field [(1:ℝ)] ∧ cosineSim c5Field [(1:ℝ)] ≤ 1) ∧
      cosineSim c5Field ([(1:ℝ)].map (fun x => 2 * x)) *
          (2 * l2norm [(1:ℝ)] + epsStab) =
        2 * (cosineSim c5Field [(1:ℝ)] * (l2norm [(1:ℝ)] + epsStab)) := by
  constructor
  · refine resonance_range_scaling.1 c5Field [(1:ℝ)] _ ?_
    rw [resonance_with, if_neg (by simp [c5Field, mkMandorla])]
  · exact resonance_range_scaling.2 c5Field [(1:ℝ)] 2 (by norm_num)

/-- **C5 (counterexample).** Doubling the injection changes the value of
`resonance_with` at an explicit input: the `1e-10` stabiliser breaks
exact invariance under positive rescaling. -/
theorem resonance_scaling_counterexample :
    resonance_with c5Field ([(1:ℝ)].map (fun x => 2 * x)) ≠
      resonance_with c5Field [(1:ℝ)] := by
  have h1 : l2norm [(1:ℝ)] = 1 := by
    have hs : sumSq [(1:ℝ)] = 1 := by
      simp [sumSq]
    rw [l2norm, hs, Real.sqrt_one]
  have h2 : l2norm [(2:ℝ)] = 2 := by
    have hs : sumSq [(2:ℝ)] = 4 := by
      simp [sumSq]
      norm_num
    rw [l2norm, hs, show (4:ℝ) = 2 ^ 2 by norm_num, Real.sqrt_sq (by norm_num)]
  have hmap : [(1:ℝ)].map (fun x => 2 * x) = [(2:ℝ)] := by norm_num
  rw [hmap]
  have hst : c5Field.field_state = [(1:ℝ)] := rfl
  have hdim : c5Field.dimension = 1 := rfl
  simp only [resonance_with, hdim, List.length_singleton, ne_eq,
    not_true_eq_false, if_false, reduceIte]
  intro h
  have h' : cosineSim c5Field [(2:ℝ)] = cosineSim c5Field [(1:ℝ)] := by
    exact Except.ok.inj h
  rw [cosineSim, cosineSim, hst, h1, h2] at h'
  simp only [dotList, List.map_cons, List.map_nil, List.zipWith_cons_cons,
    List.zipWith_nil_right, List.sum_cons, List.sum_nil, epsStab] at h'
  rw [add_zero, add_zero] at h'
  have he : (0:ℝ) < 1 / 10 ^ 10 := by norm_num
  have hne1 : (1:ℝ) + 1 / 10 ^ 10 ≠ 0 := by positivity
  have hne2 : (2:ℝ) + 1 / 10 ^ 10 ≠ 0 := by positivity
  field_simp at h'
  norm_num at h'

/-- Frame helper shared with the calibrator development: updating the
submodules never touches the field state. -/
theorem update_submodules_field_state (f : MandorlaField)
    (t : PerformanceTriplet) (alg : String) :
    (update_submodules f t alg).field_state = f.field_state := rfl

/-- **C10.** `update_submodules` writes only the single submodule slot
selected by the algorithm → slot map (mod the number of submodules):
the dimension, field state, coefficients `α`, `γ`, `β` and every other
submodule slot are unchanged, the selected slot receives the
`0.8·old + 0.2·encoded` blend, and unknown algorithm names fall back to
slot `0` instead of failing.  (`submodule_states` nonempty and
`dimension ≥ 5` delimit the inputs on which the Python code does not
raise.) -/
theorem update_submodules_frame (f : MandorlaField) (t : PerformanceTriplet)
    (alg : String) (hs : 0 < f.submodule_states.length) (_hd : 5 ≤ f.dimension) :
    (update_submodules f t alg).dimension = f.dimension ∧
      (update_submodules f t alg).field_state = f.field_state ∧
      (update_submodules f t alg).alpha = f.alpha ∧
      (update_submodules f t alg).gamma = f.gamma ∧
      (update_submodules f t alg).beta_weights = f.beta_weights ∧
      (update_submodules f t alg).submodule_states.length =
        f.submodule_states.length ∧
      (∀ j, j < f.submodule_states.length →
        j ≠ algorithmSlot alg % f.submodule_states.length →
        (update_submodules f t alg).submodule_states.getD j [] =
          f.submodule_states.getD j []) ∧
      (update_submodules f t alg).submodule_states.getD
          (algorithmSlot alg % f.submodule_states.length) [] =
        vadd
          (vsmul (4/5) (f.submodule_states.getD
            (algorithmSlot alg % f.submodule_states.length) []))
          (vsmul (1/5) (encodedSubmodule f.dimension t)) ∧
      (alg ∉ ["VQE", "QAOA", "QuantumWalk", "Grover", "Boson", "VQC"] →
        algorithmSlot alg % f.submodule_states.length = 0) := by
  refine ⟨rfl, rfl, rfl, rfl, rfl, by simp [update_submodules], ?_, ?_, ?_⟩
  · intro j _ hj
    show (f.submodule_states.set _ _).getD j [] = f.submodule_states.getD j []
    rw [List.getD_eq_getElem?_getD, List.getElem?_set_ne (Ne.symm hj),
      List.getD_eq_getElem?_getD]
  · have hlt : algorithmSlot alg % f.submodule_states.length <
        f.submodule_states.length := Nat.mod_lt _ hs
    show (f.submodule_states.set _ _).getD _ [] = _
    rw [List.getD_eq_getElem?_getD, List.getElem?_set_self' ]
    simp [List.getElem?_eq_getElem hlt]
  · intro halg
    have h0 : algorithmSlot alg = 0 := by
      simp only [List.mem_cons, List.mem_singleton, not_or] at halg
      obtain ⟨h1, h2, h3, h4, h5, h6, _⟩ := halg
      simp [algorithmSlot, h1, h2, h3, h4, h5, h6]
    rw [h0, Nat.zero_mod]

/-- Witness for C10 at a concrete field: a five-dimensional field with
three submodules, updated under an unknown algorithm name. -/
theorem update_submodules_frame_witness :
    (update_submodules (mkMandorla 5) neutralTriplet "XYZ").field_state =
        (mkMandorla 5).field_state ∧
      algorithmSlot "XYZ" % (mkMandorla 5).submodule_states.length = 0 := by
  have h := update_submodules_frame (mkMandorla 5) neutralTriplet "XYZ"
    (by simp [mkMandorla]) (by simp [mkMandorla])
  exact ⟨h.2.1, h.2.2.2.2.2.2.2.2 (by decide)⟩

/-- **C4.** `ProofOfResonance.check` rejects whenever the candidate's
`ω` is below `min_efficiency` regardless of the other criteria; a
candidate with `ω` exactly equal to `min_efficiency` passes the
efficiency criterion; the overall result is the conjunction of the four
criteria, and the field-resonance criterion passes whenever no field or
no injection is supplied. -/
theorem porCheck_spec (crit : PoRCriteria) (current candidate : PerformanceTriplet)
    (field? : Option MandorlaField) (injection? : Option (List ℝ)) :
    (candidate.omega < crit.min_efficiency →
        ¬ porCheck crit current candidate field? injection?) ∧
      (candidate.omega = crit.min_efficiency → check_efficiency crit candidate) ∧
      (porCheck crit current candidate field? injection? ↔
        check_quality crit current candidate ∧
          check_stability crit current candidate ∧
          check_efficiency crit candidate ∧
          ∀ f inj, field? = some f → injection? = some inj →
            check_field_resonance crit f inj) ∧
      ((field? = none ∨ injection? = none) →
        (porCheck crit current candidate field? injection? ↔
          check_quality crit current candidate ∧
            check_stability crit current candidate ∧
            check_efficiency crit candidate)) := by
  refine ⟨?_, ?_, ?_, ?_⟩
  · rintro hlt ⟨_, _, heff, _⟩
    exact absurd heff (not_le.mpr hlt)
  · intro he
    rw [check_efficiency, he]
  · cases field? <;> cases injection? <;> simp [porCheck]
  · intro h
    rcases h with h | h
    · subst h
      cases injection? <;> simp [porCheck]
    · subst h
      cases field? <;> simp [porCheck]

/-- Witness for C4: with the default criteria, a candidate with
`ω = 0.2 < 0.3` is rejected outright, and `ω` exactly `0.3` passes the
efficiency criterion. -/
theorem porCheck_spec_witness :
    ¬ porCheck {} neutralTriplet ⟨1/2, 1/2, 1/5⟩ none none ∧
      check_efficiency {} ⟨1/2, 1/2, 3/10⟩ := by
  constructor
  · exact (porCheck_spec {} neutralTriplet ⟨1/2, 1/2, 1/5⟩ none none).1
      (by norm_num)
  · exact (porCheck_spec {} neutralTriplet ⟨1/2, 1/2, 3/10⟩ none none).2.1 rfl

/-- **C3 (amended).** A calibration step on an initialized, enabled
calibrator either completes fully or raises; the not-initialized error
leaves the state unchanged, but an error during the benchmark load —
the first fallible operation of a step — leaves `step_count` already
incremented (all other in-memory state unchanged at that point). -/
theorem calibration_step_error_behavior :
    (∀ (s : CalibratorState) (bench : Except Unit (List BenchEntry))
        (draws : DoubleKickDraws), s.enabled = true → s.current_config = none →
        calibration_step s bench draws = .error s) ∧
      ∀ (s : CalibratorState) (draws : DoubleKickDraws), s.enabled = true →
        s.current_config ≠ none →
        calibration_step s (.error ()) draws =
          .error { s with step_count := s.step_count + 1 } := by
  constructor
  · intro s bench draws he hc
    simp [calibration_step, he, hc]
  · intro s draws he hc
    obtain ⟨cfg, hcfg⟩ := Option.ne_none_iff_exists'.mp hc
    simp [calibration_step, he, hcfg]

/-- Witness for C3 at a concrete state: the benchmark-load failure path
of `calibration_step`, starting from an initialized state with
`step_count = 0`. -/
theorem calibration_step_error_behavior_witness :
    calibration_step c3State (.error ()) c1draws =
      .error { c3State with step_count := c3State.step_count + 1 } :=
  calibration_step_error_behavior.2 c3State c1draws rfl (by simp [c3State])

/-- **C3 (counterexample).** At an explicit initialized state, a
benchmark-load failure makes `calibration_step` raise with the step
counter already incremented: the error does *not* leave all in-memory
state unchanged. -/
theorem calibration_step_not_atomic :
    calibration_step c3State (.error ()) c1draws =
        .error { c3State with step_count := 1 } ∧
      ({ c3State with step_count := 1 } : CalibratorState).step_count ≠
        c3State.step_count := by
  constructor
  · simp [calibration_step, c3State]
  · simp [c3State]

/-- Scalar-multiplied vectors divide pointwise into a single scale. -/
theorem vsmul_map_div (a c : ℝ) (xs : List ℝ) :
    (vsmul a xs).map (fun x => x / c) = vsmul (a / c) xs := by
  simp only [vsmul, List.map_map]
  congr 1
  funext x
  simp only [Function.comp_apply]
  ring

/-- `vsmul` composes multiplicatively. -/
theorem vsmul_vsmul (a b : ℝ) (xs : List ℝ) :
    vsmul a (vsmul b xs) = vsmul (a * b) xs := by
  simp only [vsmul, List.map_map]
  congr 1
  funext x
  simp only [Function.comp_apply]
  ring

/-- Adding two scalings of the same vector scales by the sum. -/
theorem vadd_vsmul_same (a b : ℝ) (xs : List ℝ) :
    vadd (vsmul a xs) (vsmul b xs) = vsmul (a + b) xs := by
  induction xs with
  | nil => rfl
  | cons x xs ih =>
      simp only [vsmul, List.map_cons, vadd, List.zipWith_cons_cons,
        List.cons.injEq] at ih ⊢
      exact ⟨by ring, ih⟩

/-- Adding the zero vector on the right is the identity. -/
theorem vadd_replicate_zero_right (xs : List ℝ) :
    vadd xs (List.replicate xs.length 0) = xs := by
  induction xs with
  | nil => rfl
  | cons x xs ih =>
      simp only [List.length_cons, List.replicate_succ, vadd,
        List.zipWith_cons_cons, add_zero, List.cons.injEq]
      exact ⟨trivial, ih⟩

/-- Adding the zero vector on the left is the identity. -/
theorem vadd_replicate_zero_left (ys : List ℝ) :
    vadd (List.replicate ys.length 0) ys = ys := by
  induction ys with
  | nil => rfl
  | cons y ys ih =>
      simp only [List.length_cons, List.replicate_succ, vadd,
        List.zipWith_cons_cons, zero_add, List.cons.injEq]
      exact ⟨trivial, ih⟩

/-- Scaling the zero vector gives the zero vector. -/
theorem vsmul_replicate_zero (c : ℝ) (n : ℕ) :
    vsmul c (List.replicate n 0) = List.replicate n 0 := by
  simp [vsmul]

/-- The submodule accumulation loop is the identity when every
submodule is the zero vector. -/
theorem fold_zip_zero (n : ℕ) :
    ∀ (pairs : List (ℝ × List ℝ)), (∀ p ∈ pairs, p.2 = List.replicate n 0) →
      ∀ acc : List ℝ, acc.length = n →
      pairs.foldl (fun acc bg => vadd acc (vsmul bg.1 bg.2)) acc = acc := by
  intro pairs
  induction pairs with
  | nil => intro _ acc _; rfl
  | cons p ps ih =>
      intro hp acc hacc
      simp only [List.foldl_cons]
      rw [hp p (List.mem_cons_self _ _), vsmul_replicate_zero, ← hacc,
        vadd_replicate_zero_right]
      exact ih (fun q hq => hp q (List.mem_cons_of_mem _ hq)) acc hacc

/-- With all-zero submodules, the combined vector is just
`α·state + γ·injection`. -/
theorem combinedState_zero_subs (f : MandorlaField) (inj : List ℝ)
    (hst : f.field_state.length = f.dimension)
    (hsub : ∀ g ∈ f.submodule_states, g = List.replicate f.dimension 0) :
    combinedState f inj = vadd (vsmul f.alpha f.field_state) (vsmul f.gamma inj) := by
  rw [combinedState]
  congr 1
  refine fold_zip_zero f.dimension _ ?_ _ ?_
  · intro p hp
    exact hsub p.2 (List.of_mem_zip hp).2
  · rw [vsmul_length, hst]

/-- The empty benchmark set aggregates to the neutral triplet. -/
theorem compute_triplet_nil : compute_performance_triplet [] = neutralTriplet := by
  simp [compute_performance_triplet]

/-- The encoder produces vectors of the requested dimension. -/
theorem encode_length (n : ℕ) (t : PerformanceTriplet) :
    (encode n t).length = n := by
  simp [encode]

/-- The neutral injection has the default field dimension. -/
theorem injP_length : injP.length = 16 := by
  simp [injP, encode]

/-- Slot 0 of the neutral injection is `ψ = 1/2`. -/
theorem encodeComponent_neutral_zero :
    encodeComponent 16 neutralTriplet 0 = 1/2 := by
  norm_num [encodeComponent, neutralTriplet]

/-- The neutral injection has positive norm. -/
theorem injP_norm_pos : 0 < l2norm injP := by
  have hmem0 : ((1:ℝ)/2) ∈ injP := by
    rw [injP, encode]
    refine List.mem_map.mpr ⟨0, ?_, encodeComponent_neutral_zero⟩
    simp
  have hsum : ((1:ℝ)/2) ^ 2 ≤ sumSq injP := by
    refine List.single_le_sum ?_ _ (List.mem_map_of_mem _ hmem0)
    intro x hx
    obtain ⟨y, _, rfl⟩ := List.mem_map.mp hx
    positivity
  rw [l2norm]
  apply Real.sqrt_pos.mpr
  nlinarith [hsum]

/-- The initial combined vector is the `γ`-scaled neutral injection. -/
theorem c1_combined_init :
    combinedState (mkMandorla 16) injP = vsmul (1/2) injP := by
  rw [combinedState_zero_subs (mkMandorla 16) injP (by simp [mkMandorla])
    (by simp [mkMandorla])]
  rw [show (mkMandorla 16).field_state = List.replicate 16 0 from rfl,
    show (mkMandorla 16).alpha = (19/20 : ℝ) from rfl,
    show (mkMandorla 16).gamma = (1/2 : ℝ) from rfl,
    vsmul_replicate_zero]
  rw [show (16:ℕ) = (vsmul (1/2 : ℝ) injP).length from by
    rw [vsmul_length, injP_length]]
  exact vadd_replicate_zero_left _

/-- The initial field update normalises a nonzero vector. -/
theorem c1_init_norm_pos : 0 < l2norm (combinedState (mkMandorla 16) injP) := by
  rw [c1_combined_init,
    show vsmul (1/2 : ℝ) injP = injP.map (fun x => (1/2 : ℝ) * x) from rfl,
    l2norm_map_mul]
  exact mul_pos (by norm_num) injP_norm_pos

/-- `initialize` on the default configuration with no benchmarks
produces exactly the state `c1s0`. -/
theorem c1_initial_state :
    initializeCalibrator [] default_configuration = .ok c1s0 := by
  rw [initializeCalibrator, if_neg (by simp [default_configuration_valid])]
  have hsc : set_current {} default_configuration =
      .ok ⟨some default_configuration, [default_configuration]⟩ := by
    simp [set_current, default_configuration_valid]
  rw [hsc, compute_triplet_nil]
  have hupd : (mkMandorla 16).update (encode 16 neutralTriplet) =
      .ok c1InitField := by
    rw [show encode 16 neutralTriplet = injP from rfl, MandorlaField.update,
      if_neg (by simp [injP_length, mkMandorla]), if_pos c1_init_norm_pos]
    rfl
  rw [hupd]
  have hcri : (ResonanceImpulse.update {} neutralTriplet).1 =
      ({ config := {}, global_state := { history := [1/8], window_size := 5 },
         steps_since_last_impulse := 1 } : ResonanceImpulse) := by
    simp only [ResonanceImpulse.update, GlobalCalibrationState.update,
      neutralTriplet]
    norm_num
  rw [hcri]
  rfl

/-- `np.dot` against a scaled left argument. -/
theorem dotList_map_mul_left (k : ℝ) :
    ∀ xs ys : List ℝ, dotList (xs.map (fun x => k * x)) ys = k * dotList xs ys := by
  intro xs
  induction xs with
  | nil => intro ys; simp [dotList]
  | cons x xs ih =>
      intro ys
      cases ys with
      | nil => simp [dotList]
      | cons y ys =>
          simp only [dotList, List.map_cons, List.zipWith_cons_cons,
            List.sum_cons] at ih ⊢
          rw [ih]
          ring

/-- Pointwise multiplication of two mapped lists. -/
theorem zipWith_mul_map (F G : ℕ → ℝ) :
    ∀ l : List ℕ, List.zipWith (· * ·) (l.map F) (l.map G) =
      l.map (fun i => F i * G i) := by
  intro l
  induction l with
  | nil => rfl
  | cons i l ih => simp [ih]

/-- List sums over `List.range` agree with `Finset.range` sums. -/
theorem sum_map_range (F : ℕ → ℝ) :
    ∀ n : ℕ, ((List.range n).map F).sum = ∑ i ∈ Finset.range n, F i := by
  intro n
  induction n with
  | zero => simp
  | succ n ih =>
      rw [List.range_succ, List.map_append, List.sum_append,
        Finset.sum_range_succ, ih]
      simp

/-- The dot product of two encoder outputs as an index sum. -/
theorem dotList_map_range (F G : ℕ → ℝ) (n : ℕ) :
    dotList ((List.range n).map F) ((List.range n).map G) =
      ∑ i ∈ Finset.range n, F i * G i := by
  rw [dotList, zipWith_mul_map, sum_map_range]

/-- Bound for one harmonic tail term of the injection dot product: with
`|s|, |c|, |u| ≤ 1` and the candidate triplet within the heuristic
bumps of the neutral one, the product of the two harmonic components is
at least `-27/2000`. -/
theorem harmProd_bound (s c u ψ ρ ω : ℝ)
    (hs1 : -1 ≤ s) (hs2 : s ≤ 1) (hc1 : -1 ≤ c) (hc2 : c ≤ 1)
    (hu1 : -1 ≤ u) (hu2 : u ≤ 1)
    (hψ1 : 1/2 ≤ ψ) (hψ2 : ψ ≤ 53/100) (hρ1 : 1/2 ≤ ρ) (hρ2 : ρ ≤ 53/100)
    (hω1 : 1/2 ≤ ω) (hω2 : ω ≤ 13/25) :
    -(27/2000) ≤ (2/5 * s * (1/2) + 3/10 * c * (1/2) + 3/10 * u * (1/2)) *
      (2/5 * s * ψ + 3/10 * c * ρ + 3/10 * u * ω) := by
  have hb1 : -(3/100 : ℝ) ≤ s * (ψ - 1/2) ∧ s * (ψ - 1/2) ≤ 3/100 := by
    constructor <;> nlinarith
  have hb2 : -(3/100 : ℝ) ≤ c * (ρ - 1/2) ∧ c * (ρ - 1/2) ≤ 3/100 := by
    constructor <;> nlinarith
  have hb3 : -(1/50 : ℝ) ≤ u * (ω - 1/2) ∧ u * (ω - 1/2) ≤ 1/50 := by
    constructor <;> nlinarith
  set A : ℝ := 2/5 * s * (1/2) + 3/10 * c * (1/2) + 3/10 * u * (1/2) with hA
  set B : ℝ := 2/5 * s * ψ + 3/10 * c * ρ + 3/10 * u * ω with hB
  have hA1 : -(1/2 : ℝ) ≤ A := by rw [hA]; linarith
  have hA2 : A ≤ 1/2 := by rw [hA]; linarith
  set δ : ℝ := 2/5 * (s * (ψ - 1/2)) + 3/10 * (c * (ρ - 1/2)) +
    3/10 * (u * (ω - 1/2)) with hδ
  have hδ1 : -(27/1000 : ℝ) ≤ δ := by rw [hδ]; linarith [hb1.1, hb2.1, hb3.1]
  have hδ2 : δ ≤ 27/1000 := by rw [hδ]; linarith [hb1.2, hb2.2, hb3.2]
  have hBA : B = A + δ := by rw [hA, hB, hδ]; ring
  have habs : |A * δ| ≤ 27/2000 := by
    rw [abs_mul]
    calc |A| * |δ| ≤ (1/2) * (27/1000) :=
          mul_le_mul (abs_le.mpr ⟨hA1, hA2⟩) (abs_le.mpr ⟨hδ1, hδ2⟩)
            (abs_nonneg _) (by norm_num)
      _ = 27/2000 := by norm_num
  have hfinal : A * B = A ^ 2 + A * δ := by rw [hBA]; ring
  rw [hfinal]
  have h1 := neg_abs_le (A * δ)
  have h2 := sq_nonneg A
  clear_value A B δ
  linarith

/-- The harmonic mean of a componentwise-nonnegative triplet is
nonnegative. -/
theorem harmonic_mean_nonneg (t : PerformanceTriplet) (h1 : 0 ≤ t.psi)
    (h2 : 0 ≤ t.rho) (h3 : 0 ≤ t.omega) : 0 ≤ t.harmonic_mean := by
  rw [PerformanceTriplet.harmonic_mean]
  split_ifs with h
  · exact le_refl 0
  · push_neg at h
    obtain ⟨hψ, hρ, hω⟩ := h
    have hψ' : 0 < t.psi := lt_of_le_of_ne h1 (Ne.symm hψ)
    have hρ' : 0 < t.rho := lt_of_le_of_ne h2 (Ne.symm hρ)
    have hω' : 0 < t.omega := lt_of_le_of_ne h3 (Ne.symm hω)
    positivity

/-- The geometric mean of a triplet with nonnegative product is
nonnegative. -/
theorem geometric_mean_nonneg (t : PerformanceTriplet)
    (h : 0 ≤ t.psi * t.rho * t.omega) : 0 ≤ t.geometric_mean := by
  rw [PerformanceTriplet.geometric_mean]
  exact Real.rpow_nonneg (by exact_mod_cast h) _

/-- The triplet norm is nonnegative. -/
theorem tnorm_nonneg (t : PerformanceTriplet) : 0 ≤ t.tnorm :=
  Real.sqrt_nonneg _

/-- The heuristic estimate from the neutral triplet stays within the
bump range: `ψ ∈ [0.5, 0.53]`, `ρ ∈ [0.5, 0.53]`, `ω ∈ [0.5, 0.52]`. -/
theorem estimate_neutral_bounds (cfg : Configuration) :
    (1/2 ≤ (estimateCandidatePerformance neutralTriplet cfg).psi ∧
        (estimateCandidatePerformance neutralTriplet cfg).psi ≤ 53/100) ∧
      (1/2 ≤ (estimateCandidatePerformance neutralTriplet cfg).rho ∧
        (estimateCandidatePerformance neutralTriplet cfg).rho ≤ 53/100) ∧
      (1/2 ≤ (estimateCandidatePerformance neutralTriplet cfg).omega ∧
        (estimateCandidatePerformance neutralTriplet cfg).omega ≤ 13/25) := by
  simp only [estimateCandidatePerformance, neutralTriplet]
  split_ifs <;> norm_num [min_def]

/-- The harmonic mean of the neutral triplet is `1/2`. -/
theorem harmonic_mean_neutral : neutralTriplet.harmonic_mean = 1/2 := by
  norm_num [PerformanceTriplet.harmonic_mean, neutralTriplet]

/-- Projection of the neutral triplet: quality. -/
theorem neutralTriplet_psi : neutralTriplet.psi = 1/2 := rfl

/-- Projection of the neutral triplet: stability. -/
theorem neutralTriplet_rho : neutralTriplet.rho = 1/2 := rfl

/-- Projection of the neutral triplet: efficiency. -/
theorem neutralTriplet_omega : neutralTriplet.omega = 1/2 := rfl

set_option maxHeartbeats 2000000 in
/-- The injection dot product between the neutral triplet and any
triplet within the heuristic bump range is nonnegative: the first slot
alone contributes at least `1/4`, slots 1-8 are products of
nonnegatives, and each of the seven harmonic tail terms is at least
`-27/2000`. -/
theorem encode_dot_nonneg (q : PerformanceTriplet)
    (h1 : 1/2 ≤ q.psi) (h2 : q.psi ≤ 53/100) (h3 : 1/2 ≤ q.rho)
    (h4 : q.rho ≤ 53/100) (h5 : 1/2 ≤ q.omega) (h6 : q.omega ≤ 13/25) :
    0 ≤ dotList (encode 16 neutralTriplet) (encode 16 q) := by
  have r1 : (1/2 : ℝ) ≤ (q.psi : ℝ) := by
    have := (Rat.cast_le (K := ℝ)).mpr h1
    push_cast at this
    exact this
  have r2 : (q.psi : ℝ) ≤ 53/100 := by
    have := (Rat.cast_le (K := ℝ)).mpr h2
    push_cast at this
    exact this
  have r3 : (1/2 : ℝ) ≤ (q.rho : ℝ) := by
    have := (Rat.cast_le (K := ℝ)).mpr h3
    push_cast at this
    exact this
  have r4 : (q.rho : ℝ) ≤ 53/100 := by
    have := (Rat.cast_le (K := ℝ)).mpr h4
    push_cast at this
    exact this
  have r5 : (1/2 : ℝ) ≤ (q.omega : ℝ) := by
    have := (Rat.cast_le (K := ℝ)).mpr h5
    push_cast at this
    exact this
  have r6 : (q.omega : ℝ) ≤ 13/25 := by
    have := (Rat.cast_le (K := ℝ)).mpr h6
    push_cast at this
    exact this
  have p1 : (0:ℝ) ≤ (q.psi : ℝ) := by linarith
  have p2 : (0:ℝ) ≤ (q.rho : ℝ) := by linarith
  have p3 : (0:ℝ) ≤ (q.omega : ℝ) := by linarith
  have phm : (0:ℝ) ≤ (q.harmonic_mean : ℝ) := by
    have h := harmonic_mean_nonneg q (by linarith) (by linarith) (by linarith)
    exact_mod_cast h
  have pgm : (0:ℝ) ≤ q.geometric_mean :=
    geometric_mean_nonneg q
      (mul_nonneg (mul_nonneg (by linarith) (by linarith)) (by linarith))
  have pgm0 : (0:ℝ) ≤ neutralTriplet.geometric_mean :=
    geometric_mean_nonneg neutralTriplet (by norm_num [neutralTriplet])
  have ptn : (0:ℝ) ≤ q.tnorm := tnorm_nonneg q
  have ptn0 : (0:ℝ) ≤ neutralTriplet.tnorm := tnorm_nonneg neutralTriplet
  have hb9 := harmProd_bound (Real.sin (2 * Real.pi * 9 / 16))
    (Real.cos (2 * Real.pi * 9 / 16)) (Real.sin (2 * (2 * Real.pi * 9 / 16)))
    (q.psi : ℝ) (q.rho : ℝ) (q.omega : ℝ) (Real.neg_one_le_sin _)
    (Real.sin_le_one _) (Real.neg_one_le_cos _) (Real.cos_le_one _)
    (Real.neg_one_le_sin _) (Real.sin_le_one _) r1 r2 r3 r4 r5 r6
  have hb10 := harmProd_bound (Real.sin (2 * Real.pi * 10 / 16))
    (Real.cos (2 * Real.pi * 10 / 16)) (Real.sin (2 * (2 * Real.pi * 10 / 16)))
    (q.psi : ℝ) (q.rho : ℝ) (q.omega : ℝ) (Real.neg_one_le_sin _)
    (Real.sin_le_one _) (Real.neg_one_le_cos _) (Real.cos_le_one _)
    (Real.neg_one_le_sin _) (Real.sin_le_one _) r1 r2 r3 r4 r5 r6
  have hb11 := harmProd_bound (Real.sin (2 * Real.pi * 11 / 16))
    (Real.cos (2 * Real.pi * 11 / 16)) (Real.sin (2 * (2 * Real.pi * 11 / 16)))
    (q.psi : ℝ) (q.rho : ℝ) (q.omega : ℝ) (Real.neg_one_le_sin _)
    (Real.sin_le_one _) (Real.neg_one_le_cos _) (Real.cos_le_one _)
    (Real.neg_one_le_sin _) (Real.sin_le_one _) r1 r2 r3 r4 r5 r6
  have hb12 := harmProd_bound (Real.sin (2 * Real.pi * 12 / 16))
    (Real.cos (2 * Real.pi * 12 / 16)) (Real.sin (2 * (2 * Real.pi * 12 / 16)))
    (q.psi : ℝ) (q.rho : ℝ) (q.omega : ℝ) (Real.neg_one_le_sin _)
    (Real.sin_le_one _) (Real.neg_one_le_cos _) (Real.cos_le_one _)
    (Real.neg_one_le_sin _) (Real.sin_le_one _) r1 r2 r3 r4 r5 r6
  have hb13 := harmProd_bound (Real.sin (2 * Real.pi * 13 / 16))
    (Real.cos (2 * Real.pi * 13 / 16)) (Real.sin (2 * (2 * Real.pi * 13 / 16)))
    (q.psi : ℝ) (q.rho : ℝ) (q.omega : ℝ) (Real.neg_one_le_sin _)
    (Real.sin_le_one _) (Real.neg_one_le_cos _) (Real.cos_le_one _)
    (Real.neg_one_le_sin _) (Real.sin_le_one _) r1 r2 r3 r4 r5 r6
  have hb14 := harmProd_bound (Real.sin (2 * Real.pi * 14 / 16))
    (Real.cos (2 * Real.pi * 14 / 16)) (Real.sin (2 * (2 * Real.pi * 14 / 16)))
    (q.psi : ℝ) (q.rho : ℝ) (q.omega : ℝ) (Real.neg_one_le_sin _)
    (Real.sin_le_one _) (Real.neg_one_le_cos _) (Real.cos_le_one _)
    (Real.neg_one_le_sin _) (Real.sin_le_one _) r1 r2 r3 r4 r5 r6
  have hb15 := harmProd_bound (Real.sin (2 * Real.pi * 15 / 16))
    (Real.cos (2 * Real.pi * 15 / 16)) (Real.sin (2 * (2 * Real.pi * 15 / 16)))
    (q.psi : ℝ) (q.rho : ℝ) (q.omega : ℝ) (Real.neg_one_le_sin _)
    (Real.sin_le_one _) (Real.neg_one_le_cos _) (Real.cos_le_one _)
    (Real.neg_one_le_sin _) (Real.sin_le_one _) r1 r2 r3 r4 r5 r6
  rw [encode, encode, dotList_map_range]
  simp only [Finset.sum_range_succ, Finset.sum_range_zero]
  norm_num [encodeComponent, neutralTriplet_psi, neutralTriplet_rho,
    neutralTriplet_omega, harmonic_mean_neutral]
  linarith [hb9, hb10, hb11, hb12, hb13, hb14, hb15, phm,
    mul_nonneg pgm0 pgm, mul_nonneg ptn0 ptn, mul_nonneg p1 p2,
    mul_nonneg p1 p3, mul_nonneg (mul_nonneg p1 p2) p3, r1, r3, r5]

/-- Depth-1 perturbation of the default configuration. -/
theorem applyDraw_default_depth0 :
    applyDraw default_configuration (.depth 0) = depthOneConfig := by
  simp only [applyDraw, default_configuration, depthOneConfig, List.getD]
  norm_num

/-- Depth draw `0` leaves the depth-1 configuration unchanged. -/
theorem applyDraw_depthOne_depth1 :
    applyDraw depthOneConfig (.depth 1) = depthOneConfig := by
  simp only [applyDraw, default_configuration, depthOneConfig, List.getD]
  norm_num

/-- Depth draw `+1` takes the depth-1 configuration back to the default. -/
theorem applyDraw_depthOne_depth2 :
    applyDraw depthOneConfig (.depth 2) = default_configuration := by
  simp only [applyDraw, default_configuration, depthOneConfig, List.getD]
  norm_num

/-- Depth draw `0` leaves the default configuration unchanged. -/
theorem applyDraw_default_depth1 :
    applyDraw default_configuration (.depth 1) = default_configuration := by
  simp only [applyDraw, default_configuration, List.getD]
  norm_num

/-- The depth-1 configuration is valid. -/
theorem depthOneConfig_valid : is_valid depthOneConfig = true := by
  rw [is_valid_iff]
  refine ⟨by decide, by decide, by decide, by decide, ?_, by decide⟩
  simp only [depthOneConfig, default_configuration, not_or, not_le, not_lt]
  norm_num

/-- Quality score of the depth-1 neighbor from the default configuration
at the neutral triplet: all three applicable bonuses fire. -/
theorem quality_score_default_depthOne :
    estimate_quality_improvement default_configuration depthOneConfig
      neutralTriplet = 59/100 := by
  simp only [estimate_quality_improvement, default_configuration, depthOneConfig,
    neutralTriplet]
  norm_num

/-- Quality score of the default-configuration neighbor from the depth-1
configuration at the neutral triplet. -/
theorem quality_score_depthOne_default :
    estimate_quality_improvement depthOneConfig default_configuration
      neutralTriplet = 59/100 := by
  simp only [estimate_quality_improvement, default_configuration, depthOneConfig,
    neutralTriplet]
  norm_num

/-- Stability score of the depth-1 configuration as its own neighbor. -/
theorem stability_score_depthOne :
    estimate_stability_improvement depthOneConfig depthOneConfig
      neutralTriplet = 259/500 := by
  simp only [estimate_stability_improvement, default_configuration, depthOneConfig,
    neutralTriplet]
  norm_num

/-- Stability score of the default configuration as its own neighbor. -/
theorem stability_score_default :
    estimate_stability_improvement default_configuration default_configuration
      neutralTriplet = 259/500 := by
  simp only [estimate_stability_improvement, default_configuration, neutralTriplet]
  norm_num

/-- Update kick at the concrete draw outcome: all 8 neighbors are the
depth-1 configuration, whose score `0.59` beats the current `ψ = 0.5`. -/
theorem updateKick_default_depth0 :
    updateKickApply default_configuration neutralTriplet
      (eightDraws (.depth 0)) = depthOneConfig := by
  have hn : generate_neighbors default_configuration (eightDraws (.depth 0)) =
      [depthOneConfig, depthOneConfig, depthOneConfig, depthOneConfig,
        depthOneConfig, depthOneConfig, depthOneConfig, depthOneConfig] := by
    simp [generate_neighbors, eightDraws, applyDraw_default_depth0,
      depthOneConfig_valid]
  simp only [updateKickApply, hn, List.isEmpty_cons, Bool.false_eq_true,
    if_false, selectBest, List.foldl, quality_score_default_depthOne,
    neutralTriplet_psi]
  norm_num

/-- Stabilization kick at the concrete draw outcome: all 8 neighbors are
the depth-1 configuration itself, whose score `0.518` beats the blend
`0.6·ρ + 0.4·ω = 0.5`. -/
theorem stabilizationKick_depthOne_depth1 :
    stabilizationKickApply depthOneConfig neutralTriplet
      (eightDraws (.depth 1)) = depthOneConfig := by
  have hn : generate_neighbors depthOneConfig (eightDraws (.depth 1)) =
      [depthOneConfig, depthOneConfig, depthOneConfig, depthOneConfig,
        depthOneConfig, depthOneConfig, depthOneConfig, depthOneConfig] := by
    simp [generate_neighbors, eightDraws, applyDraw_depthOne_depth1,
      depthOneConfig_valid]
  simp only [stabilizationKickApply, hn, List.isEmpty_cons, Bool.false_eq_true,
    if_false, selectBest, List.foldl, stability_score_depthOne,
    neutralTriplet_rho, neutralTriplet_omega]
  norm_num

/-- Update kick of iteration 1: all 8 neighbors take the depth back to 2
(the default configuration), scoring `0.59 > 0.5`. -/
theorem updateKick_depthOne_depth2 :
    updateKickApply depthOneConfig neutralTriplet
      (eightDraws (.depth 2)) = default_configuration := by
  have hn : generate_neighbors depthOneConfig (eightDraws (.depth 2)) =
      [default_configuration, default_configuration, default_configuration,
        default_configuration, default_configuration, default_configuration,
        default_configuration, default_configuration] := by
    simp [generate_neighbors, eightDraws, applyDraw_depthOne_depth2,
      default_configuration_valid]
  simp only [updateKickApply, hn, List.isEmpty_cons, Bool.false_eq_true,
    if_false, selectBest, List.foldl, quality_score_depthOne_default,
    neutralTriplet_psi]
  norm_num

/-- Stabilization kick of iteration 1: all 8 neighbors are the default
configuration itself, scoring `0.518 > 0.5`. -/
theorem stabilizationKick_default_depth1 :
    stabilizationKickApply default_configuration neutralTriplet
      (eightDraws (.depth 1)) = default_configuration := by
  have hn : generate_neighbors default_configuration (eightDraws (.depth 1)) =
      [default_configuration, default_configuration, default_configuration,
        default_configuration, default_configuration, default_configuration,
        default_configuration, default_configuration] := by
    simp [generate_neighbors, eightDraws, applyDraw_default_depth1,
      default_configuration_valid]
  simp only [stabilizationKickApply, hn, List.isEmpty_cons, Bool.false_eq_true,
    if_false, selectBest, List.foldl, stability_score_default,
    neutralTriplet_rho, neutralTriplet_omega]
  norm_num

/-- The composed double kick of iteration 0 moves the default
configuration to depth 1. -/
theorem doubleKick_c8_iter0 :
    doubleKickApply (c8draws 0) default_configuration neutralTriplet =
      depthOneConfig := by
  have h0 : c8draws 0 = ⟨eightDraws (.depth 0), eightDraws (.depth 1)⟩ := by
    simp [c8draws]
  simp only [doubleKickApply, h0]
  rw [updateKick_default_depth0, stabilizationKick_depthOne_depth1]

/-- The composed double kick of iteration 1 moves the depth-1
configuration back to the default. -/
theorem doubleKick_c8_iter1 :
    doubleKickApply (c8draws 1) depthOneConfig neutralTriplet =
      default_configuration := by
  have h1 : c8draws 1 = ⟨eightDraws (.depth 2), eightDraws (.depth 1)⟩ := by
    simp [c8draws]
  simp only [doubleKickApply, h1]
  rw [updateKick_depthOne_depth2, stabilizationKick_default_depth1]

/-- The configuration distance between the default and the depth-1
configurations is `0.1` (one depth step, normalised by 10). -/
theorem distance_default_depthOne :
    distance default_configuration depthOneConfig = 1/10 := by
  simp only [distance, default_configuration, depthOneConfig]
  norm_num

/-- The same distance in the other direction. -/
theorem distance_depthOne_default :
    distance depthOneConfig default_configuration = 1/10 := by
  simp only [distance, default_configuration, depthOneConfig]
  norm_num

/-- The two-iteration concrete run records the distances
`[0.1, 0.1]`. -/
theorem c8_recorded_distances :
    (iterateAux c8draws neutralTriplet 0 2 default_configuration).2 =
      [1/10, 1/10] := by
  have h0 : iterateAux c8draws neutralTriplet 0 2 default_configuration =
      ((iterateAux c8draws neutralTriplet 1 1 depthOneConfig).1,
        (1:ℚ)/10 :: (iterateAux c8draws neutralTriplet 1 1 depthOneConfig).2) := by
    show iterateAux c8draws neutralTriplet 0 (1 + 1) default_configuration = _
    simp only [iterateAux, doubleKick_c8_iter0, distance_default_depthOne]
    norm_num
  have h1 : iterateAux c8draws neutralTriplet 1 1 depthOneConfig =
      ((iterateAux c8draws neutralTriplet 2 0 default_configuration).1,
        (1:ℚ)/10 :: (iterateAux c8draws neutralTriplet 2 0 default_configuration).2) := by
    show iterateAux c8draws neutralTriplet 1 (0 + 1) depthOneConfig = _
    simp only [iterateAux, doubleKick_c8_iter1, distance_depthOne_default]
    norm_num
  rw [h0, h1]
  simp [iterateAux]

/-- **C8 (counterexample).** At an explicit input — the default
configuration, the neutral triplet, two iterations, and draws that move
the depth down and then back up — both recorded distances equal `0.1`,
yet the returned convergence rate is *not* `0.1 / 0.1`: the code
divides by `first + 1e-10`, not by the first recorded distance. -/
theorem doubleKickIterate_rate_counterexample :
    (iterateAux c8draws neutralTriplet 0 2 default_configuration).2 =
        [1/10, 1/10] ∧
      (doubleKickIterate c8draws default_configuration neutralTriplet 2).2 ≠
        (1/10 : ℚ) / (1/10) := by
  refine ⟨c8_recorded_distances, ?_⟩
  simp only [doubleKickIterate, c8_recorded_distances]
  norm_num

/-- Witness for C8 at the concrete two-iteration run: both recorded
distances are `≥ 0.01` (no early stop happened), and the rate equals
the epsilon-stabilized ratio. -/
theorem doubleKickIterate_spec_witness :
    (1:ℚ)/100 ≤
        (iterateAux c8draws neutralTriplet 0 2 default_configuration).2.getD 0 0 ∧
      (doubleKickIterate c8draws default_configuration neutralTriplet 2).2 =
        (if 2 ≤ (iterateAux c8draws neutralTriplet 0 2 default_configuration).2.length then
          (iterateAux c8draws neutralTriplet 0 2 default_configuration).2.getLastD 0 /
            ((iterateAux c8draws neutralTriplet 0 2 default_configuration).2.headD 0 +
              1/10 ^ 10)
        else 0) := by
  have h := doubleKickIterate_spec c8draws default_configuration neutralTriplet 2
  refine ⟨h.2.2.1 0 ?_, h.2.2.2.2⟩
  rw [c8_recorded_distances]
  norm_num

/-- Witness for C7 at a concrete input: the default configuration is
valid, and a concrete draw list produces only valid neighbors. -/
theorem generate_neighbors_valid_witness :
    (generate_neighbors default_configuration
        [.optimizer 1, .depth 0, .lr (3/2)]).length ≤ 3 ∧
      (∀ n ∈ generate_neighbors default_configuration
        [.optimizer 1, .depth 0, .lr (3/2)], is_valid n = true) ∧
      ∀ d ∈ ([.optimizer 1, .depth 0, .lr (3/2)] : List NeighborDraw),
        is_valid (applyDraw default_configuration d) = true :=
  generate_neighbors_valid default_configuration default_configuration_valid
    [.optimizer 1, .depth 0, .lr (3/2)]

/-- The best-neighbor selection returns the start configuration or one
of the sampled neighbors. -/
theorem selectBest_mem (score : Configuration → ℚ) (start : Configuration)
    (s0 : ℚ) (ns : List Configuration) :
    selectBest score start s0 ns = start ∨ selectBest score start s0 ns ∈ ns := by
  suffices h : ∀ (ms : List Configuration) (p : Configuration × ℚ),
      (ms.foldl (fun best n => if best.2 < score n then (n, score n) else best) p).1
          = p.1 ∨
        (ms.foldl (fun best n => if best.2 < score n then (n, score n) else best) p).1
          ∈ ms by
    exact h ns (start, s0)
  intro ms
  induction ms with
  | nil => intro p; exact Or.inl rfl
  | cons n ms ih =>
      intro p
      simp only [List.foldl_cons]
      by_cases hc : p.2 < score n
      · rw [if_pos hc]
        rcases ih (n, score n) with h1 | h1
        · exact Or.inr (by rw [h1]; exact List.mem_cons_self _ _)
        · exact Or.inr (List.mem_cons_of_mem _ h1)
      · rw [if_neg hc]
        rcases ih p with h1 | h1
        · exact Or.inl h1
        · exact Or.inr (List.mem_cons_of_mem _ h1)

/-- The update kick preserves validity: it returns the input
configuration or a filtered (hence valid) neighbor. -/
theorem updateKickApply_valid (c : Configuration) (perf : PerformanceTriplet)
    (draws : List NeighborDraw) (hc : is_valid c = true) :
    is_valid (updateKickApply c perf draws) = true := by
  simp only [updateKickApply]
  by_cases he : (generate_neighbors c draws).isEmpty = true
  · rw [if_pos he]; exact hc
  · rw [if_neg he]
    rcases selectBest_mem (fun n => estimate_quality_improvement c n perf) c
      perf.psi (generate_neighbors c draws) with h | h
    · rw [h]; exact hc
    · exact List.of_mem_filter h

/-- The stabilization kick preserves validity. -/
theorem stabilizationKickApply_valid (c : Configuration)
    (perf : PerformanceTriplet) (draws : List NeighborDraw)
    (hc : is_valid c = true) :
    is_valid (stabilizationKickApply c perf draws) = true := by
  simp only [stabilizationKickApply]
  by_cases he : (generate_neighbors c draws).isEmpty = true
  · rw [if_pos he]; exact hc
  · rw [if_neg he]
    rcases selectBest_mem (fun n => estimate_stability_improvement c n perf) c
      (3/5 * perf.rho + 2/5 * perf.omega) (generate_neighbors c draws) with h | h
    · rw [h]; exact hc
    · exact List.of_mem_filter h

/-- The composed double kick preserves validity. -/
theorem doubleKickApply_valid (d : DoubleKickDraws) (c : Configuration)
    (perf : PerformanceTriplet) (hc : is_valid c = true) :
    is_valid (doubleKickApply d c perf) = true :=
  stabilizationKickApply_valid _ _ _ (updateKickApply_valid _ _ _ hc)

/-- The neutral injection is the encoded neutral triplet. -/
theorem injP_def : encode 16 neutralTriplet = injP := rfl

/-- The initial field keeps the default dimension. -/
theorem c1InitField_dim : c1InitField.dimension = 16 := rfl

/-- The initial field keeps the default memory coefficient. -/
theorem c1InitField_alpha : c1InitField.alpha = 19/20 := rfl

/-- The initial field keeps the default injection coefficient. -/
theorem c1InitField_gamma : c1InitField.gamma = 1/2 := rfl

/-- The initial field keeps the three zero submodules. -/
theorem c1InitField_subs : c1InitField.submodule_states =
    [List.replicate 16 0, List.replicate 16 0, List.replicate 16 0] := rfl

/-- The default configuration targets the VQE algorithm. -/
theorem default_algorithm : default_configuration.algorithm = "VQE" := rfl

/-- Cold-start state projection: SCS enabled. -/
theorem c1s0_enabled : c1s0.enabled = true := rfl

/-- Cold-start state projection: default field dimension. -/
theorem c1s0_fd : c1s0.field_dimension = 16 := rfl

/-- Cold-start state projection: default PoR criteria. -/
theorem c1s0_por : c1s0.por_criteria = {} := rfl

/-- Cold-start state projection: configuration space. -/
theorem c1s0_space : c1s0.space =
    ⟨some default_configuration, [default_configuration]⟩ := rfl

/-- Cold-start state projection: the initialized field. -/
theorem c1s0_field : c1s0.field = c1InitField := rfl

/-- Cold-start state projection: CRI state after one update. -/
theorem c1s0_cri : c1s0.cri = ⟨{}, ⟨[1/8], 5⟩, 1⟩ := rfl

/-- Cold-start state projection: current configuration. -/
theorem c1s0_config : c1s0.current_config = some default_configuration := rfl

/-- Cold-start state projection: current performance. -/
theorem c1s0_perf : c1s0.current_performance = some neutralTriplet := rfl

/-- Cold-start state projection: step counter. -/
theorem c1s0_steps : c1s0.step_count = 0 := rfl

/-- Cold-start state projection: empty history. -/
theorem c1s0_history : c1s0.history = [] := rfl

/-- Quality score of the default configuration as its own neighbor:
three bonuses fire. -/
theorem quality_score_default_default :
    estimate_quality_improvement default_configuration default_configuration
      neutralTriplet = 59/100 := by
  simp only [estimate_quality_improvement, default_configuration, neutralTriplet]
  norm_num

/-- Update kick when every sampled neighbor is the unchanged default
configuration: its score `0.59` beats the current `ψ = 0.5`, so the
(identical) first neighbor is selected. -/
theorem updateKick_default_depth1 :
    updateKickApply default_configuration neutralTriplet
      (eightDraws (.depth 1)) = default_configuration := by
  have hn : generate_neighbors default_configuration (eightDraws (.depth 1)) =
      [default_configuration, default_configuration, default_configuration,
        default_configuration, default_configuration, default_configuration,
        default_configuration, default_configuration] := by
    simp [generate_neighbors, eightDraws, applyDraw_default_depth1,
      default_configuration_valid]
  simp only [updateKickApply, hn, List.isEmpty_cons, Bool.false_eq_true,
    if_false, selectBest, List.foldl, quality_score_default_default,
    neutralTriplet_psi]
  norm_num

/-- The double kick at the all-identity draw outcome leaves the default
configuration unchanged. -/
theorem doubleKick_c1 :
    doubleKickApply c1draws default_configuration neutralTriplet =
      default_configuration := by
  have h : c1draws = ⟨eightDraws (.depth 1), eightDraws (.depth 1)⟩ := rfl
  simp only [doubleKickApply, h]
  rw [updateKick_default_depth1, stabilizationKick_default_depth1]

/-- The heuristic candidate estimate at the default configuration from
the neutral triplet: `ψ` gains the Metatron and Adam bumps, `ω` the
shallow-depth bump, `ρ` none. -/
theorem estimate_default :
    estimateCandidatePerformance neutralTriplet default_configuration =
      ⟨53/100, 1/2, 13/25⟩ := by
  simp only [estimateCandidatePerformance, default_configuration, neutralTriplet]
  norm_num [min_def]

/-- Scaling a vector scales its norm by the absolute scale factor. -/
theorem l2norm_vsmul (k : ℝ) (xs : List ℝ) :
    l2norm (vsmul k xs) = |k| * l2norm xs := l2norm_map_mul xs k

/-- The first `calibration_step` field update succeeds and keeps the
field state a positive multiple of the neutral injection. -/
theorem c1_second_update :
    ∃ μ : ℝ, 0 < μ ∧ c1InitField.update injP =
      .ok { c1InitField with field_state := vsmul μ injP } := by
  have hτ : 0 < l2norm (combinedState (mkMandorla 16) injP) := c1_init_norm_pos
  have hfs : c1InitField.field_state =
      vsmul (1/2 / l2norm (combinedState (mkMandorla 16) injP)) injP := by
    show (combinedState (mkMandorla 16) injP).map
        (fun x => x / l2norm (combinedState (mkMandorla 16) injP)) = _
    rw [c1_combined_init]
    exact vsmul_map_div _ _ _
  have hμ0 : 0 < (1:ℝ)/2 / l2norm (combinedState (mkMandorla 16) injP) :=
    div_pos (by norm_num) hτ
  have hsub : ∀ g ∈ c1InitField.submodule_states,
      g = List.replicate c1InitField.dimension 0 := by
    rw [c1InitField_subs, c1InitField_dim]
    intro g hg
    fin_cases hg <;> rfl
  have hst : c1InitField.field_state.length = c1InitField.dimension := by
    rw [hfs, vsmul_length, injP_length, c1InitField_dim]
  have hcomb : combinedState c1InitField injP =
      vsmul (19/20 * (1/2 / l2norm (combinedState (mkMandorla 16) injP)) + 1/2)
        injP := by
    rw [combinedState_zero_subs c1InitField injP hst hsub, c1InitField_alpha,
      c1InitField_gamma, hfs, vsmul_vsmul, vadd_vsmul_same]
  have hν : 0 < (19:ℝ)/20 * (1/2 / l2norm (combinedState (mkMandorla 16) injP))
      + 1/2 := by
    have := mul_pos (show (0:ℝ) < 19/20 by norm_num) hμ0
    linarith
  have hL : 0 < l2norm (combinedState c1InitField injP) := by
    rw [hcomb, l2norm_vsmul]
    exact mul_pos (abs_pos.mpr hν.ne') injP_norm_pos
  refine ⟨(19/20 * (1/2 / l2norm (combinedState (mkMandorla 16) injP)) + 1/2) /
      l2norm (combinedState c1InitField injP), div_pos hν hL, ?_⟩
  simp only [MandorlaField.update]
  rw [if_neg (show ¬(injP.length ≠ c1InitField.dimension) from by
    rw [injP_length, c1InitField_dim]; exact fun h => h rfl), if_pos hL]
  rw [hcomb, vsmul_map_div]

/-- The cosine similarity of a nonnegatively scaled neutral injection
with the encoding of any triplet inside the heuristic bump range is
nonnegative. -/
theorem cosineSim_nonneg_of (μ : ℝ) (hμ : 0 ≤ μ) (f : MandorlaField)
    (hf : f.field_state = vsmul μ injP) (q : PerformanceTriplet)
    (h1 : 1/2 ≤ q.psi) (h2 : q.psi ≤ 53/100) (h3 : 1/2 ≤ q.rho)
    (h4 : q.rho ≤ 53/100) (h5 : 1/2 ≤ q.omega) (h6 : q.omega ≤ 13/25) :
    0 ≤ cosineSim f (encode 16 q) := by
  rw [cosineSim, hf, dotList_map_div_left, dotList_map_div_right]
  have hd : 0 ≤ dotList (vsmul μ injP) (encode 16 q) := by
    rw [show vsmul μ injP = injP.map (fun x => μ * x) from rfl,
      dotList_map_mul_left]
    refine mul_nonneg hμ ?_
    rw [show injP = encode 16 neutralTriplet from rfl]
    exact encode_dot_nonneg q h1 h2 h3 h4 h5 h6
  have ha : 0 ≤ l2norm (vsmul μ injP) + epsStab :=
    add_nonneg (l2norm_nonneg _) epsStab_pos.le
  have hb : 0 ≤ l2norm (encode 16 q) + epsStab :=
    add_nonneg (l2norm_nonneg _) epsStab_pos.le
  exact div_nonneg (div_nonneg hd hb) ha

/-- The PoR check accepts the heuristic candidate estimate from the
neutral triplet against any field whose state is a nonnegative multiple
of the neutral injection: quality and stability rise, efficiency stays
far above the floor, and the resonance is nonnegative. -/
theorem c1_por (μ : ℝ) (hμ : 0 ≤ μ) (f : MandorlaField)
    (hf : f.field_state = vsmul μ injP) (cfg : Configuration) :
    porCheck {} neutralTriplet (estimateCandidatePerformance neutralTriplet cfg)
      (some f)
      (some (encode 16 (estimateCandidatePerformance neutralTriplet cfg))) := by
  obtain ⟨⟨hψ1, hψ2⟩, ⟨hρ1, hρ2⟩, hω1, hω2⟩ := estimate_neutral_bounds cfg
  refine ⟨?_, ?_, ?_, ?_⟩
  · show neutralTriplet.psi + (0:ℚ) ≤
      (estimateCandidatePerformance neutralTriplet cfg).psi
    rw [neutralTriplet_psi]
    linarith
  · show neutralTriplet.rho - (1/10 : ℚ) ≤
      (estimateCandidatePerformance neutralTriplet cfg).rho
    rw [neutralTriplet_rho]
    linarith
  · show (3/10 : ℚ) ≤ (estimateCandidatePerformance neutralTriplet cfg).omega
    linarith
  · show ((0:ℚ) : ℝ) ≤ cosineSim f
      (encode 16 (estimateCandidatePerformance neutralTriplet cfg))
    rw [Rat.cast_zero]
    exact cosineSim_nonneg_of μ hμ f hf _ hψ1 hψ2 hρ1 hρ2 hω1 hω2

/-- The resonance impulse cannot trigger on the step after
initialization: only two steps have elapsed, fewer than the
`min_steps = 10` of the default CRI configuration. -/
theorem c1_no_trigger (t : PerformanceTriplet) (f : MandorlaField) :
    ¬ should_trigger (((⟨{}, ⟨[1/8], 5⟩, 1⟩ : ResonanceImpulse).update t)).1 f := by
  intro h
  have h1 := h.1
  simp [ResonanceImpulse.update, GlobalCalibrationState.update] at h1

/-- One `calibration_step` from the neutral cold start, for every
outcome of the random neighbor draws: the run completes, the candidate
is accepted, the impulse does not fire, and `current_performance`
becomes the heuristic estimate of the double-kick candidate. -/
theorem c1_step (draws : DoubleKickDraws) :
    ∃ sOut : CalibratorState,
      calibration_step c1s0 (.ok []) draws = .ok (sOut, .done true false) ∧
      sOut.current_performance =
        some (estimateCandidatePerformance neutralTriplet
          (doubleKickApply draws default_configuration neutralTriplet)) := by
  obtain ⟨μ, hμ, hupd⟩ := c1_second_update
  have hcand : is_valid (doubleKickApply draws default_configuration
      neutralTriplet) = true :=
    doubleKickApply_valid _ _ _ default_configuration_valid
  let cand := doubleKickApply draws default_configuration neutralTriplet
  let cp := estimateCandidatePerformance neutralTriplet cand
  let f1 : MandorlaField := { dimension := 16, field_state := vsmul μ injP, alpha := c1InitField.alpha, gamma := c1InitField.gamma, beta_weights := c1InitField.beta_weights, submodule_states := [List.replicate 16 0, List.replicate 16 0, List.replicate 16 0] }
  let R : ResonanceImpulse := ⟨{}, ⟨[1/8], 5⟩, 1⟩
  refine ⟨{ enabled := true, field_dimension := 16, por_criteria := {},
            space := ⟨some cand, [default_configuration, cand]⟩,
            field := update_submodules f1 neutralTriplet "VQE",
            cri := (R.update cp).1, current_config := some cand,
            current_performance := some cp, step_count := 1,
            history := [⟨1, cand, cp, (R.update cp).2, true, false⟩] }, ?_, rfl⟩
  · simp only [calibration_step, stepFinish, set_current, c1s0_enabled,
      c1s0_config, c1s0_perf, c1s0_field, c1s0_fd, c1s0_por, c1s0_space,
      c1s0_cri, c1s0_steps, c1s0_history, compute_triplet_nil, injP_def, hupd,
      default_algorithm, c1InitField_dim, c1InitField_subs, hcand,
      Bool.true_eq_false, if_false, List.length_cons, List.length_nil,
      Option.getD_some, List.nil_append, if_true, Nat.zero_add]
    norm_num
    split
    · split
      · next _ h =>
          exact absurd h (c1_no_trigger _ _)
      · rfl
    · next h =>
        refine absurd (c1_por μ hμ.le _ ?_ _) h
        rw [update_submodules_field_state]

/-- **C1 (amended).** Starting from the default configuration with an
empty benchmark set, `initialize()` produces the neutral cold-start
state `c1s0`, and one `calibration_step` — for **every** outcome of the
random neighbor draws — **accepts** the double-kick candidate
(`accepted = true`, no CRI trigger): the heuristic candidate estimate
never lowers `ψ` below the current value, so all four PoR criteria pass
without any actual benchmark improvement, and `current_performance`
becomes the heuristic estimate of the candidate instead of staying at
the neutral triplet. -/
theorem calibration_step_from_neutral :
    initializeCalibrator [] default_configuration = .ok c1s0 ∧
    ∀ draws : DoubleKickDraws, ∃ sOut : CalibratorState,
      calibration_step c1s0 (.ok []) draws = .ok (sOut, .done true false) ∧
      sOut.current_performance =
        some (estimateCandidatePerformance neutralTriplet
          (doubleKickApply draws default_configuration neutralTriplet)) ∧
      neutralTriplet.psi ≤ (estimateCandidatePerformance neutralTriplet
        (doubleKickApply draws default_configuration neutralTriplet)).psi := by
  refine ⟨c1_initial_state, fun draws => ?_⟩
  obtain ⟨sOut, h1, h2⟩ := c1_step draws
  refine ⟨sOut, h1, h2, ?_⟩
  rw [neutralTriplet_psi]
  exact (estimate_neutral_bounds _).1.1

/-- **C1 (counterexample).** At the concrete draw outcome where every
sampled neighbor is the unchanged default configuration, the step from
the neutral cold start reports `accepted = true` — not `false` — and
replaces `current_performance` with the heuristic estimate
`(0.53, 0.5, 0.52)`, which differs from the neutral triplet: the PoR
check does *not* reject the heuristically bumped candidate. -/
theorem calibration_step_neutral_counterexample :
    ∃ sOut : CalibratorState,
      calibration_step c1s0 (.ok []) c1draws = .ok (sOut, .done true false) ∧
      sOut.current_performance ≠ some neutralTriplet := by
  obtain ⟨sOut, h1, h2⟩ := c1_step c1draws
  refine ⟨sOut, h1, ?_⟩
  rw [h2, doubleKick_c1, estimate_default]
  intro h
  have h3 := congrArg PerformanceTriplet.psi (Option.some.inj h)
  norm_num [neutralTriplet] at h3

end SCS
